import Mathlib

/-!
# Verification of the interactive-archive simulation engines

Shallow embedding of the two per-frame simulation engines of the repository:

* the rain particle simulator (`src/projects/rain/RainApp.ts`): gravity,
  spherical obstacle collision around the pointer, drag, integration and
  recycling, plus the transient lightning (discharge) state machine;
* the branch growth automaton (`AvatarNetworkApp`): per-segment growth,
  spawn-on-completion, generation and population bounds, and the tube-mesh
  bookkeeping.

Numbers are modelled as rationals (`ℚ`).  The only operations of the source
that are not rational are `Math.sqrt`, `Math.sin` and `Math.cos`; those are
passed in as oracle functions `sq sinF cosA sinA : ℚ → ℚ`, and each theorem
that depends on their value constrains them with the defining property at the
point of use (e.g. `sq d * sq d = d ∧ 0 ≤ sq d`).  Randomness (`Math.random()`
calls) is passed in as explicit arguments in `[0,1)`.
-/

set_option maxHeartbeats 1600000

/-- A 3-component vector over `ℚ`, modelling `THREE.Vector3`. -/
structure V3 where
  x : ℚ
  y : ℚ
  z : ℚ
deriving DecidableEq, Repr

namespace V3

/-- Componentwise addition. -/
def add (a b : V3) : V3 := ⟨a.x + b.x, a.y + b.y, a.z + b.z⟩

/-- Componentwise subtraction. -/
def sub (a b : V3) : V3 := ⟨a.x - b.x, a.y - b.y, a.z - b.z⟩

/-- Scalar multiplication. -/
def smul (c : ℚ) (a : V3) : V3 := ⟨c * a.x, c * a.y, c * a.z⟩

instance : Add V3 := ⟨V3.add⟩

instance : Sub V3 := ⟨V3.sub⟩

instance : SMul ℚ V3 := ⟨V3.smul⟩

/-- Dot product. -/
def dot (a b : V3) : ℚ := a.x * b.x + a.y * b.y + a.z * b.z

/-- Squared Euclidean norm (`lengthSq` in THREE). -/
def normSq (a : V3) : ℚ := a.dot a

@[simp] theorem add_def (a b : V3) : a + b = ⟨a.x + b.x, a.y + b.y, a.z + b.z⟩ := rfl

@[simp] theorem sub_def (a b : V3) : a - b = ⟨a.x - b.x, a.y - b.y, a.z - b.z⟩ := rfl

@[simp] theorem smul_def (c : ℚ) (a : V3) : c • a = ⟨c * a.x, c * a.y, c * a.z⟩ := rfl

end V3

namespace Rain

/-- Particle count constant of `RainApp` (not needed per-particle, kept for reference). -/
def PARTICLE_COUNT : ℕ := 10000

/-- Horizontal extent of the rain volume. -/
def RAIN_RANGE_X : ℚ := 40

/-- Vertical extent of the rain volume (height to fall from). -/
def RAIN_RANGE_Y : ℚ := 30

/-- Depth extent of the rain volume. -/
def RAIN_RANGE_Z : ℚ := 10

/-- Gravity constant of `RainApp`. -/
def GRAVITY : ℚ := 5

/-- Radius of the spherical obstacle (umbrella) around the pointer. -/
def UMBRELLA_RADIUS : ℚ := 3

/-- Outward bounce impulse added on reflection. -/
def BOUNCE_FORCE : ℚ := 1/2

/-- One particle: a position and a velocity, as the `positions` and
`velocities` arrays of `RainApp` store per slot. -/
structure Particle where
  pos : V3
  vel : V3
deriving DecidableEq, Repr

/-- The body of `RainApp.resetParticle` with `initial = false`: fresh random
`x` and `z` inside the volume, `y` at the top band, zero horizontal and depth
velocity and a fresh downward random velocity `-(rVy * 5 + 5)`.
`rX rVy rZ` model the three `Math.random()` calls, each in `[0,1)`. -/
def resetParticle (rX rVy rZ : ℚ) : Particle :=
  { pos := ⟨(rX - 1/2) * RAIN_RANGE_X, RAIN_RANGE_Y / 2, (rZ - 1/2) * RAIN_RANGE_Z⟩
    vel := ⟨0, -(rVy * 5 + 5), 0⟩ }

/-- Gravity step of `RainApp.update`: `vy -= GRAVITY * delta`. -/
def gravityStep (delta : ℚ) (pt : Particle) : Particle :=
  { pt with vel := ⟨pt.vel.x, pt.vel.y - GRAVITY * delta, pt.vel.z⟩ }

/-- Obstacle collision step of `RainApp.update`.  `c` is the pointer world
position (`mouseWorldPos`), `sq` is the `Math.sqrt` oracle.  Inside the
sphere (`distSq < radiusSq`), in the upper hemisphere (`n.y > 0`) and moving
inward (`dot < 0`), the velocity is reflected about the outward normal, a
fixed bounce impulse is added along the normal, and the position is pushed
out of the sphere by `UMBRELLA_RADIUS - dist + 0.05` along the normal. -/
def collideStep (sq : ℚ → ℚ) (c : V3) (pt : Particle) : Particle :=
  let d : V3 := pt.pos - c
  let distSq := d.normSq
  let radiusSq := UMBRELLA_RADIUS * UMBRELLA_RADIUS
  if distSq < radiusSq then
    let dist := sq distSq
    let n : V3 := ⟨d.x / dist, d.y / dist, d.z / dist⟩
    if 0 < n.y then
      let dt := pt.vel.x * n.x + pt.vel.y * n.y + pt.vel.z * n.z
      if dt < 0 then
        let v1 : V3 := pt.vel - (2 * dt) • n
        let v2 : V3 := v1 + BOUNCE_FORCE • n
        let pushOut := UMBRELLA_RADIUS - dist + 1/20
        { pos := pt.pos + pushOut • n, vel := v2 }
      else pt
    else pt
  else pt

/-- Drag step of `RainApp.update`: damp `vx` and `vz` by `0.99`, leave `vy`
undamped. -/
def dragStep (pt : Particle) : Particle :=
  { pt with vel := ⟨pt.vel.x * (99/100), pt.vel.y, pt.vel.z * (99/100)⟩ }

/-- Position integration step of `RainApp.update`: `position += velocity * delta`. -/
def integrateStep (delta : ℚ) (pt : Particle) : Particle :=
  { pt with pos := pt.pos + delta • pt.vel }

/-- Recycle step of `RainApp.update`: a particle whose `y` fell below the
lower bound `-RAIN_RANGE_Y / 2` is reset via `resetParticle`. -/
def recycleStep (rX rVy rZ : ℚ) (pt : Particle) : Particle :=
  if pt.pos.y < -(RAIN_RANGE_Y / 2) then resetParticle rX rVy rZ else pt

/-- The whole per-particle body of `RainApp.update`, in source order:
gravity, obstacle collision, drag, integration, recycle. -/
def updateParticle (sq : ℚ → ℚ) (delta : ℚ) (c : V3) (rX rVy rZ : ℚ)
    (pt : Particle) : Particle :=
  recycleStep rX rVy rZ
    (integrateStep delta (dragStep (collideStep sq c (gravityStep delta pt))))

/-- C1: immediately after the per-particle update returns, `position.y` is at
least the lower bound `-RAIN_RANGE_Y / 2` (here even exactly, with no epsilon
needed); a particle whose integrated `y` fell below the bound inside the step
was reset in that same step to the top band `y = RAIN_RANGE_Y / 2` with zero
horizontal and depth velocity and a fresh downward-biased random velocity in
`(-10, -5]`. -/
theorem rain_recycle_lower_bound (sq : ℚ → ℚ) (delta : ℚ) (c : V3)
    (rX rVy rZ : ℚ) (pt : Particle) (h0 : 0 ≤ rVy) (h1 : rVy < 1) :
    -(RAIN_RANGE_Y / 2) ≤ (updateParticle sq delta c rX rVy rZ pt).pos.y ∧
    ((integrateStep delta (dragStep (collideStep sq c (gravityStep delta pt)))).pos.y <
        -(RAIN_RANGE_Y / 2) →
      (updateParticle sq delta c rX rVy rZ pt).pos.y = RAIN_RANGE_Y / 2 ∧
      (updateParticle sq delta c rX rVy rZ pt).vel.x = 0 ∧
      (updateParticle sq delta c rX rVy rZ pt).vel.z = 0 ∧
      (updateParticle sq delta c rX rVy rZ pt).vel.y ≤ -5 ∧
      -10 < (updateParticle sq delta c rX rVy rZ pt).vel.y) := by
  constructor
  · unfold updateParticle recycleStep
    by_cases h :
        (integrateStep delta (dragStep (collideStep sq c (gravityStep delta pt)))).pos.y <
          -(RAIN_RANGE_Y / 2)
    · rw [if_pos h]
      norm_num [resetParticle, RAIN_RANGE_Y]
    · rw [if_neg h]
      linarith [not_lt.mp h]
  · intro hc
    unfold updateParticle recycleStep
    rw [if_pos hc]
    refine ⟨rfl, rfl, rfl, ?_, ?_⟩
    · simp only [resetParticle]
      linarith
    · simp only [resetParticle]
      linarith

/-- C1 witness: a concrete particle whose integrated `y` falls below the
floor is recycled to the top band in the same step. -/
theorem rain_recycle_lower_bound_witness :
    -(RAIN_RANGE_Y / 2) ≤
      (updateParticle (fun _ => 0) 1 ⟨100, 100, 100⟩ (1/2) (1/2) (1/2)
        { pos := ⟨0, -20, 0⟩, vel := ⟨0, 0, 0⟩ }).pos.y ∧
    (updateParticle (fun _ => 0) 1 ⟨100, 100, 100⟩ (1/2) (1/2) (1/2)
        { pos := ⟨0, -20, 0⟩, vel := ⟨0, 0, 0⟩ }).pos.y = RAIN_RANGE_Y / 2 := by
  have h := rain_recycle_lower_bound (fun _ => 0) 1 ⟨100, 100, 100⟩ (1/2) (1/2) (1/2)
    { pos := ⟨0, -20, 0⟩, vel := ⟨0, 0, 0⟩ } (by norm_num) (by norm_num)
  refine ⟨h.1, (h.2 ?_).1⟩
  norm_num [integrateStep, dragStep, collideStep, gravityStep, V3.normSq, V3.dot,
    RAIN_RANGE_Y, UMBRELLA_RADIUS, GRAVITY]

/-- Auxiliary: the squared norm dominates the square of the `y`-component. -/
lemma normSq_y_le (d : V3) : d.y * d.y ≤ d.normSq := by
  simp only [V3.normSq, V3.dot]
  nlinarith [sq_nonneg d.x, sq_nonneg d.z]

/-- Auxiliary: a positive `y`-offset forces a positive distance oracle. -/
lemma dist_pos_of_y_pos (sq : ℚ → ℚ) (c : V3) (pt : Particle)
    (hd0 : 0 ≤ sq ((pt.pos - c).normSq))
    (hd1 : sq ((pt.pos - c).normSq) * sq ((pt.pos - c).normSq) = (pt.pos - c).normSq)
    (h2 : 0 < (pt.pos - c).y) : 0 < sq ((pt.pos - c).normSq) := by
  have hdsq : 0 < (pt.pos - c).normSq := by
    nlinarith [normSq_y_le (pt.pos - c)]
  rcases lt_or_eq_of_le hd0 with h | h
  · exact h
  · exfalso
    rw [← h] at hd1
    nlinarith [hd1, hdsq]

/-- Auxiliary: explicit form of `collideStep` when all three branch
conditions hold (inside the sphere, upper half, moving inward). -/
lemma collideStep_fires (sq : ℚ → ℚ) (c : V3) (pt : Particle)
    (hd0 : 0 ≤ sq ((pt.pos - c).normSq))
    (hd1 : sq ((pt.pos - c).normSq) * sq ((pt.pos - c).normSq) = (pt.pos - c).normSq)
    (h1 : (pt.pos - c).normSq < UMBRELLA_RADIUS * UMBRELLA_RADIUS)
    (h2 : 0 < (pt.pos - c).y) (h3 : pt.vel.dot (pt.pos - c) < 0) :
    collideStep sq c pt =
      { pos := pt.pos +
          (UMBRELLA_RADIUS - sq ((pt.pos - c).normSq) + 1/20) •
            ((1 / sq ((pt.pos - c).normSq)) • (pt.pos - c)),
        vel := pt.vel -
          (2 * (pt.vel.dot (pt.pos - c) / sq ((pt.pos - c).normSq))) •
            ((1 / sq ((pt.pos - c).normSq)) • (pt.pos - c)) +
          BOUNCE_FORCE • ((1 / sq ((pt.pos - c).normSq)) • (pt.pos - c)) } := by
  set d : V3 := pt.pos - c with hd
  set dist : ℚ := sq d.normSq with hdist
  have hdistpos : 0 < dist := dist_pos_of_y_pos sq c pt hd0 hd1 h2
  have hny : 0 < d.y / dist := div_pos h2 hdistpos
  have hdot :
      pt.vel.x * (d.x / dist) + pt.vel.y * (d.y / dist) + pt.vel.z * (d.z / dist) =
        pt.vel.dot d / dist := by
    simp only [V3.dot]
    field_simp
  have hdotneg :
      pt.vel.x * (d.x / dist) + pt.vel.y * (d.y / dist) + pt.vel.z * (d.z / dist) < 0 := by
    rw [hdot]
    exact div_neg_of_neg_of_pos h3 hdistpos
  have hnv : (⟨d.x / dist, d.y / dist, d.z / dist⟩ : V3) = (1 / dist) • d := by
    simp only [V3.smul_def]
    refine V3.mk.injEq .. ▸ ⟨by ring, by ring, by ring⟩
  simp only [collideStep, ← hd, ← hdist]
  rw [if_pos h1, if_pos hny, if_pos hdotneg]
  rw [hdot, hnv]

/-- C3: in the collision step, the velocity changes (reflection about the
outward normal plus the fixed `BOUNCE_FORCE` impulse along it) exactly when
the particle is strictly inside the sphere, the offset's `y`-component is
positive, and the velocity points inward; in every other case the collision
step leaves position and velocity unchanged.  The outward normal is
`(d.x / dist, d.y / dist, d.z / dist)` with `dist = sq d.normSq` the square
root of the squared distance, constrained by `hd0`/`hd1`. -/
theorem rain_collision_iff (sq : ℚ → ℚ) (c : V3) (pt : Particle)
    (hd0 : 0 ≤ sq ((pt.pos - c).normSq))
    (hd1 : sq ((pt.pos - c).normSq) * sq ((pt.pos - c).normSq) = (pt.pos - c).normSq) :
    (((pt.pos - c).normSq < UMBRELLA_RADIUS * UMBRELLA_RADIUS ∧ 0 < (pt.pos - c).y ∧
        pt.vel.dot (pt.pos - c) < 0) →
      collideStep sq c pt =
        { pos := pt.pos +
            (UMBRELLA_RADIUS - sq ((pt.pos - c).normSq) + 1/20) •
              ((1 / sq ((pt.pos - c).normSq)) • (pt.pos - c)),
          vel := pt.vel -
            (2 * (pt.vel.dot (pt.pos - c) / sq ((pt.pos - c).normSq))) •
              ((1 / sq ((pt.pos - c).normSq)) • (pt.pos - c)) +
            BOUNCE_FORCE • ((1 / sq ((pt.pos - c).normSq)) • (pt.pos - c)) } ∧
      (collideStep sq c pt).vel ≠ pt.vel) ∧
    (¬((pt.pos - c).normSq < UMBRELLA_RADIUS * UMBRELLA_RADIUS ∧ 0 < (pt.pos - c).y ∧
        pt.vel.dot (pt.pos - c) < 0) →
      collideStep sq c pt = pt) := by
  set d : V3 := pt.pos - c with hd
  set dist : ℚ := sq d.normSq with hdist
  constructor
  · rintro ⟨h1, h2, h3⟩
    have hdistpos : 0 < dist := dist_pos_of_y_pos sq c pt hd0 hd1 h2
    have hny : 0 < d.y / dist := div_pos h2 hdistpos
    have hstep : collideStep sq c pt =
        { pos := pt.pos + (UMBRELLA_RADIUS - dist + 1/20) • ((1 / dist) • d),
          vel := pt.vel - (2 * (pt.vel.dot d / dist)) • ((1 / dist) • d) +
            BOUNCE_FORCE • ((1 / dist) • d) } :=
      collideStep_fires sq c pt hd0 hd1 h1 h2 h3
    refine ⟨hstep, ?_⟩
    intro heq
    rw [hstep] at heq
    have hy := congrArg V3.y heq
    simp only [V3.add_def, V3.sub_def, V3.smul_def] at hy
    have hcoef : 0 < (BOUNCE_FORCE - 2 * (pt.vel.dot d / dist)) * (d.y / dist) := by
      apply mul_pos
      · have : pt.vel.dot d / dist < 0 := div_neg_of_neg_of_pos h3 hdistpos
        simp only [BOUNCE_FORCE]
        linarith
      · exact hny
    have : (1 : ℚ) / dist * d.y = d.y / dist := by ring
    nlinarith [hcoef]
  · intro hneg
    by_cases h1 : d.normSq < UMBRELLA_RADIUS * UMBRELLA_RADIUS
    · by_cases h2 : 0 < d.y
      · have hdistpos : 0 < dist := dist_pos_of_y_pos sq c pt hd0 hd1 h2
        have h3 : ¬ pt.vel.dot d < 0 := by
          intro h3
          exact hneg ⟨h1, h2, h3⟩
        have hny : 0 < d.y / dist := div_pos h2 hdistpos
        have hdot :
            pt.vel.x * (d.x / dist) + pt.vel.y * (d.y / dist) + pt.vel.z * (d.z / dist) =
              pt.vel.dot d / dist := by
          simp only [V3.dot]
          field_simp
        have hdotpos :
            ¬ (pt.vel.x * (d.x / dist) + pt.vel.y * (d.y / dist) +
                pt.vel.z * (d.z / dist) < 0) := by
          rw [hdot]
          push_neg
          exact div_nonneg (not_lt.mp h3) (le_of_lt hdistpos)
        simp only [collideStep, ← hd, ← hdist]
        rw [if_pos h1, if_pos hny, if_neg hdotpos]
      · have hnny : ¬ (0 < d.y / dist) := by
          push_neg
          exact div_nonpos_iff.mpr (Or.inr ⟨not_lt.mp h2, hd0⟩)
        simp only [collideStep, ← hd, ← hdist]
        rw [if_pos h1, if_neg hnny]
    · simp only [collideStep, ← hd, ← hdist]
      rw [if_neg h1]

/-- C3 witness: a concrete inward-moving particle inside the upper half of
the obstacle sphere gets its velocity reflected, and a concrete particle
outside the sphere is untouched. -/
theorem rain_collision_iff_witness :
    (collideStep (fun t => if t = 1 then 1 else 0) ⟨0, 0, 0⟩
        { pos := ⟨0, 1, 0⟩, vel := ⟨0, -3, 0⟩ }).vel ≠ (⟨0, -3, 0⟩ : V3) ∧
    collideStep (fun t => if t = 25 then 5 else 0) ⟨0, 0, 0⟩
        { pos := ⟨0, 5, 0⟩, vel := ⟨0, -3, 0⟩ } =
      { pos := ⟨0, 5, 0⟩, vel := ⟨0, -3, 0⟩ } := by
  constructor
  · exact ((rain_collision_iff (fun t => if t = 1 then 1 else 0) ⟨0, 0, 0⟩
      { pos := ⟨0, 1, 0⟩, vel := ⟨0, -3, 0⟩ }
      (by norm_num [V3.normSq, V3.dot])
      (by norm_num [V3.normSq, V3.dot])).1
      (by norm_num [V3.normSq, V3.dot, UMBRELLA_RADIUS])).2
  · exact (rain_collision_iff (fun t => if t = 25 then 5 else 0) ⟨0, 0, 0⟩
      { pos := ⟨0, 5, 0⟩, vel := ⟨0, -3, 0⟩ }
      (by norm_num [V3.normSq, V3.dot])
      (by norm_num [V3.normSq, V3.dot])).2
      (by rintro ⟨h1, h2, h3⟩; norm_num [V3.normSq, V3.dot, UMBRELLA_RADIUS] at h1)

/-- C4 counterpart, amended: a particle exactly at the obstacle boundary
(`distSq = radiusSq`) is treated as outside by the strict `<` comparison and
left untouched.  The zero-distance case, however, is not explicitly guarded:
the penetration test passes there (`0 < radiusSq`), so the code proceeds to
normalize the zero-length offset with a zero divisor (`sq 0 = 0`; `0/0`,
`NaN` in JS), and the reflection is skipped only because the hemisphere test
on the degenerate normal's `y`-component fails — which nevertheless leaves
the particle unchanged for that frame without any fault. -/
theorem rain_collision_boundary_zero (sq : ℚ → ℚ) (c : V3) (pt : Particle)
    (hd0 : 0 ≤ sq ((pt.pos - c).normSq))
    (hd1 : sq ((pt.pos - c).normSq) * sq ((pt.pos - c).normSq) = (pt.pos - c).normSq) :
    ((pt.pos - c).normSq = UMBRELLA_RADIUS * UMBRELLA_RADIUS → collideStep sq c pt = pt) ∧
    (pt.pos = c →
      (pt.pos - c).normSq < UMBRELLA_RADIUS * UMBRELLA_RADIUS ∧
      sq ((pt.pos - c).normSq) = 0 ∧
      ¬ (0 < (pt.pos - c).y / sq ((pt.pos - c).normSq)) ∧
      collideStep sq c pt = pt) := by
  constructor
  · intro hb
    simp only [collideStep]
    rw [if_neg (by rw [hb]; exact lt_irrefl _)]
  · intro hz
    have hdvec : pt.pos - c = ⟨0, 0, 0⟩ := by
      rw [hz]
      simp
    have hnsq : (⟨0, 0, 0⟩ : V3).normSq = 0 := by
      norm_num [V3.normSq, V3.dot]
    have hsq0 : sq 0 = 0 := by
      rw [hdvec, hnsq] at hd1
      exact mul_self_eq_zero.mp hd1
    refine ⟨?_, ?_, ?_, ?_⟩
    · rw [hdvec, hnsq]
      norm_num [UMBRELLA_RADIUS]
    · rw [hdvec, hnsq]
      exact hsq0
    · rw [hdvec, hnsq, hsq0]
      norm_num
    · simp only [collideStep, hdvec, hnsq, hsq0]
      rw [if_pos (by norm_num [UMBRELLA_RADIUS])]
      rw [if_neg (by norm_num)]

/-- C4 witness: a particle at distance exactly `UMBRELLA_RADIUS` from the
obstacle center is untouched, and a particle exactly at the center enters
the penetration branch with a zero normalization divisor yet comes out
untouched. -/
theorem rain_collision_boundary_zero_witness :
    collideStep (fun t => if t = 9 then 3 else 0) ⟨0, 0, 0⟩
        { pos := ⟨0, 3, 0⟩, vel := ⟨0, -3, 0⟩ } =
      { pos := ⟨0, 3, 0⟩, vel := ⟨0, -3, 0⟩ } ∧
    collideStep (fun t => if t = 9 then 3 else 0) ⟨1, 2, 3⟩
        { pos := ⟨1, 2, 3⟩, vel := ⟨0, -3, 0⟩ } =
      { pos := ⟨1, 2, 3⟩, vel := ⟨0, -3, 0⟩ } := by
  constructor
  · exact (rain_collision_boundary_zero (fun t => if t = 9 then 3 else 0) ⟨0, 0, 0⟩
      { pos := ⟨0, 3, 0⟩, vel := ⟨0, -3, 0⟩ }
      (by norm_num [V3.normSq, V3.dot])
      (by norm_num [V3.normSq, V3.dot])).1
      (by norm_num [V3.normSq, V3.dot, UMBRELLA_RADIUS])
  · exact ((rain_collision_boundary_zero (fun t => if t = 9 then 3 else 0) ⟨1, 2, 3⟩
      { pos := ⟨1, 2, 3⟩, vel := ⟨0, -3, 0⟩ }
      (by norm_num [V3.normSq, V3.dot])
      (by norm_num [V3.normSq, V3.dot])).2 rfl).2.2.2

/-- C4 counterexample: the zero-distance case is not explicitly guarded.
For a concrete particle exactly at the obstacle center, the penetration test
`distSq < radiusSq` — the only test evaluated before the normalization —
passes (`0 < 9`), so the zero-length offset is normalized with a zero
divisor (the distance oracle returns `0` there; `0/0` is `NaN` in JS); the
hemisphere test on the degenerate normal is what fails, and only for that
reason is the reflection skipped, the particle coming out untouched. -/
theorem rain_collision_zero_unguarded :
    (((⟨1, 2, 3⟩ : V3) - (⟨1, 2, 3⟩ : V3)).normSq <
      UMBRELLA_RADIUS * UMBRELLA_RADIUS) ∧
    (fun t => if t = (9 : ℚ) then 3 else 0)
      (((⟨1, 2, 3⟩ : V3) - (⟨1, 2, 3⟩ : V3)).normSq) = 0 ∧
    ¬ (0 < ((⟨1, 2, 3⟩ : V3) - (⟨1, 2, 3⟩ : V3)).y /
      (fun t => if t = (9 : ℚ) then 3 else 0)
        (((⟨1, 2, 3⟩ : V3) - (⟨1, 2, 3⟩ : V3)).normSq)) ∧
    collideStep (fun t => if t = 9 then 3 else 0) ⟨1, 2, 3⟩
        { pos := ⟨1, 2, 3⟩, vel := ⟨0, -3, 0⟩ } =
      { pos := ⟨1, 2, 3⟩, vel := ⟨0, -3, 0⟩ } := by
  refine ⟨?_, ?_, ?_, ?_⟩
  · norm_num [V3.normSq, V3.dot, UMBRELLA_RADIUS]
  · norm_num [V3.normSq, V3.dot]
  · norm_num [V3.normSq, V3.dot]
  · norm_num [collideStep, V3.normSq, V3.dot, UMBRELLA_RADIUS]

/-- Auxiliary: the discriminant of the penetration quadratic is negative, so
the quadratic is everywhere nonnegative. -/
lemma penetration_quadratic (t : ℚ) :
    0 ≤ (9801/10000) * t^2 - (61/1000) * t + 121/400 := by
  nlinarith [sq_nonneg (t - 305/9801)]

/-- Auxiliary scalar core of the non-penetration argument: after the
push-out the particle sits at distance `61/20` from the center along the
unit normal `n`; the reflected-and-boosted velocity `a` has normal component
at least `1/2`, and even after damping the horizontal components by `99/100`
the integrated position stays at squared distance at least `9`. -/
lemma push_integrate_key (nx ny nz ax ay az delta : ℚ)
    (hn : nx^2 + ny^2 + nz^2 = 1) (hdel : 0 ≤ delta)
    (hvn : 1/2 ≤ ax * nx + ay * ny + az * nz) :
    9 ≤ (61/20 * nx + delta * (99/100 * ax))^2 + (61/20 * ny + delta * ay)^2 +
        (61/20 * nz + delta * (99/100 * az))^2 := by
  set w : ℚ := 99/100 * (ax * nx) + ay * ny + 99/100 * (az * nz) with hw
  set h2d : ℚ := ax * nx + az * nz with hh
  clear_value w h2d
  have hexp : (61/20 * nx + delta * (99/100 * ax))^2 + (61/20 * ny + delta * ay)^2 +
      (61/20 * nz + delta * (99/100 * az))^2 =
      3721/400 * (nx^2 + ny^2 + nz^2) + (61/10) * (delta * w) +
        delta^2 * ((99/100 * ax)^2 + ay^2 + (99/100 * az)^2) := by
    rw [hw]
    ring
  rw [hexp, hn, mul_one]
  have hwe : w = (ax * nx + ay * ny + az * nz) - (1/100) * h2d := by
    rw [hw, hh]
    ring
  have hwlb : 1/2 - (1/100) * h2d ≤ w := by
    rw [hwe]
    linarith
  by_cases hwpos : 0 ≤ w
  · have h1 : 0 ≤ delta * w := mul_nonneg hdel hwpos
    have h2 : 0 ≤ delta^2 * ((99/100 * ax)^2 + ay^2 + (99/100 * az)^2) := by positivity
    nlinarith [h1, h2]
  · push_neg at hwpos
    have hh50 : 50 < h2d := by linarith
    have hcs : h2d^2 ≤ ax^2 + az^2 := by
      have c1 : h2d^2 ≤ (ax^2 + az^2) * (nx^2 + nz^2) := by
        rw [hh]
        nlinarith [sq_nonneg (ax * nz - az * nx)]
      have c2 : nx^2 + nz^2 ≤ 1 := by nlinarith [sq_nonneg ny]
      nlinarith [c1, c2, sq_nonneg ax, sq_nonneg az]
    have hV : (9801/10000) * h2d^2 ≤ (99/100 * ax)^2 + ay^2 + (99/100 * az)^2 := by
      nlinarith [hcs, sq_nonneg ay]
    have hwge : -((1/100) * h2d) ≤ w := by linarith
    have hdw : -((1/100) * (delta * h2d)) ≤ delta * w := by
      nlinarith [mul_le_mul_of_nonneg_left hwge hdel]
    have hquad := penetration_quadratic (delta * h2d)
    have hd2V : (9801/10000) * (delta * h2d)^2 ≤
        delta^2 * ((99/100 * ax)^2 + ay^2 + (99/100 * az)^2) := by
      nlinarith [mul_le_mul_of_nonneg_left hV (sq_nonneg delta)]
    nlinarith [hdw, hd2V, hquad]

/-- C2 counterpart, amended: whenever the reflection branch fires (strictly
inside the sphere, upper half, moving inward), the push-out followed by drag
and position integration leaves the particle at squared distance at least
`UMBRELLA_RADIUS^2` from the obstacle center, i.e. non-penetration holds at
the point in the step immediately after integration (before the recycle
branch is consulted). -/
theorem rain_reflection_no_penetration (sq : ℚ → ℚ) (delta : ℚ) (c : V3) (pt : Particle)
    (hdel : 0 ≤ delta)
    (hd0 : 0 ≤ sq ((pt.pos - c).normSq))
    (hd1 : sq ((pt.pos - c).normSq) * sq ((pt.pos - c).normSq) = (pt.pos - c).normSq)
    (h1 : (pt.pos - c).normSq < UMBRELLA_RADIUS * UMBRELLA_RADIUS)
    (h2 : 0 < (pt.pos - c).y) (h3 : pt.vel.dot (pt.pos - c) < 0) :
    UMBRELLA_RADIUS * UMBRELLA_RADIUS ≤
      ((integrateStep delta (dragStep (collideStep sq c pt))).pos - c).normSq := by
  have hstep := collideStep_fires sq c pt hd0 hd1 h1 h2 h3
  have hdistpos : 0 < sq ((pt.pos - c).normSq) := dist_pos_of_y_pos sq c pt hd0 hd1 h2
  obtain ⟨⟨px, py, pz⟩, ⟨vx, vy, vz⟩⟩ := pt
  obtain ⟨cx, cy, cz⟩ := c
  simp only [V3.sub_def] at hstep hdistpos hd1 h3 ⊢
  set dist : ℚ := sq (V3.normSq ⟨px - cx, py - cy, pz - cz⟩) with hdistdef
  clear_value dist
  rw [hstep]
  simp only [integrateStep, dragStep, V3.add_def, V3.sub_def, V3.smul_def, V3.normSq, V3.dot,
    UMBRELLA_RADIUS, BOUNCE_FORCE]
  have hne : dist ≠ 0 := ne_of_gt hdistpos
  have hnorm : (px - cx) * (px - cx) + (py - cy) * (py - cy) + (pz - cz) * (pz - cz) =
      dist * dist := by
    rw [hd1]
    simp [V3.normSq, V3.dot]
  set nx : ℚ := (px - cx) / dist with hnx
  set ny : ℚ := (py - cy) / dist with hny
  set nz : ℚ := (pz - cz) / dist with hnz
  clear_value nx ny nz
  have hn : nx^2 + ny^2 + nz^2 = 1 := by
    rw [hnx, hny, hnz]
    field_simp
    linear_combination hnorm
  have hdtn : vx * nx + vy * ny + vz * nz < 0 := by
    have : (vx * (px - cx) + vy * (py - cy) + vz * (pz - cz)) / dist < 0 :=
      div_neg_of_neg_of_pos h3 hdistpos
    calc vx * nx + vy * ny + vz * nz
        = (vx * (px - cx) + vy * (py - cy) + vz * (pz - cz)) / dist := by
          rw [hnx, hny, hnz]; ring
      _ < 0 := this
  -- reflected-and-boosted velocity in normal coordinates
  set dtv : ℚ := vx * nx + vy * ny + vz * nz with hdtv
  clear_value dtv
  have hvn : 1/2 ≤ (vx - 2 * dtv * nx + (1/2) * nx) * nx + (vy - 2 * dtv * ny + (1/2) * ny) * ny +
      (vz - 2 * dtv * nz + (1/2) * nz) * nz := by
    have he : (vx - 2 * dtv * nx + (1/2) * nx) * nx + (vy - 2 * dtv * ny + (1/2) * ny) * ny +
        (vz - 2 * dtv * nz + (1/2) * nz) * nz = -dtv + 1/2 := by
      rw [hdtv]
      linear_combination (1/2 - 2 * (vx * nx + vy * ny + vz * nz)) * hn
    rw [he]
    linarith
  have hkey := push_integrate_key nx ny nz (vx - 2 * dtv * nx + (1/2) * nx)
    (vy - 2 * dtv * ny + (1/2) * ny) (vz - 2 * dtv * nz + (1/2) * nz) delta hn hdel hvn
  have hKB : (61 / 20 * nx + delta * (99 / 100 * (vx - 2 * dtv * nx + 1 / 2 * nx))) ^ 2 +
        (61 / 20 * ny + delta * (vy - 2 * dtv * ny + 1 / 2 * ny)) ^ 2 +
        (61 / 20 * nz + delta * (99 / 100 * (vz - 2 * dtv * nz + 1 / 2 * nz))) ^ 2 =
      (px + (3 - dist + 1 / 20) * (1 / dist * (px - cx)) +
          delta * ((vx - 2 * ((vx * (px - cx) + vy * (py - cy) + vz * (pz - cz)) / dist) *
              (1 / dist * (px - cx)) + 1 / 2 * (1 / dist * (px - cx))) * (99 / 100)) - cx) *
        (px + (3 - dist + 1 / 20) * (1 / dist * (px - cx)) +
          delta * ((vx - 2 * ((vx * (px - cx) + vy * (py - cy) + vz * (pz - cz)) / dist) *
              (1 / dist * (px - cx)) + 1 / 2 * (1 / dist * (px - cx))) * (99 / 100)) - cx) +
      (py + (3 - dist + 1 / 20) * (1 / dist * (py - cy)) +
          delta * (vy - 2 * ((vx * (px - cx) + vy * (py - cy) + vz * (pz - cz)) / dist) *
              (1 / dist * (py - cy)) + 1 / 2 * (1 / dist * (py - cy))) - cy) *
        (py + (3 - dist + 1 / 20) * (1 / dist * (py - cy)) +
          delta * (vy - 2 * ((vx * (px - cx) + vy * (py - cy) + vz * (pz - cz)) / dist) *
              (1 / dist * (py - cy)) + 1 / 2 * (1 / dist * (py - cy))) - cy) +
      (pz + (3 - dist + 1 / 20) * (1 / dist * (pz - cz)) +
          delta * ((vz - 2 * ((vx * (px - cx) + vy * (py - cy) + vz * (pz - cz)) / dist) *
              (1 / dist * (pz - cz)) + 1 / 2 * (1 / dist * (pz - cz))) * (99 / 100)) - cz) *
        (pz + (3 - dist + 1 / 20) * (1 / dist * (pz - cz)) +
          delta * ((vz - 2 * ((vx * (px - cx) + vy * (py - cy) + vz * (pz - cz)) / dist) *
              (1 / dist * (pz - cz)) + 1 / 2 * (1 / dist * (pz - cz))) * (99 / 100)) - cz) := by
    rw [hdtv, hnx, hny, hnz]
    field_simp
    ring
  linarith [hkey, hKB]

/-- C2 witness: a concrete particle inside the upper half of the sphere,
moving inward, ends the push-out/drag/integration chain at squared distance
at least `9` from the obstacle center. -/
theorem rain_reflection_no_penetration_witness :
    UMBRELLA_RADIUS * UMBRELLA_RADIUS ≤
      ((integrateStep (1/60) (dragStep (collideStep (fun t => if t = 1 then 1 else 0)
          ⟨0, 0, 0⟩ { pos := ⟨0, 1, 0⟩, vel := ⟨0, -3, 0⟩ }))).pos -
        (⟨0, 0, 0⟩ : V3)).normSq :=
  rain_reflection_no_penetration (fun t => if t = 1 then 1 else 0) (1/60) ⟨0, 0, 0⟩
    { pos := ⟨0, 1, 0⟩, vel := ⟨0, -3, 0⟩ }
    (by norm_num)
    (by norm_num [V3.normSq, V3.dot])
    (by norm_num [V3.normSq, V3.dot])
    (by norm_num [V3.normSq, V3.dot, UMBRELLA_RADIUS])
    (by norm_num)
    (by norm_num [V3.dot])

/-- C2 counterexample: the claim as stated — distance from the obstacle
center at least the radius *at the end of the step* — fails when the recycle
branch fires in the same step.  For this concrete fast particle the
reflection branch fires (it is strictly inside the sphere, in the upper
half, and moving inward), yet after integration its `y` falls below the
floor, the recycle branch teleports it to the top band, and it lands exactly
at the obstacle center: the end-of-step squared distance is `0 < 9`. -/
theorem rain_reflection_penetration_counterexample :
    (((Rain.gravityStep (1/10) { pos := ⟨399/1000, 376/25, 0⟩, vel := ⟨-1, -400, 0⟩ }).pos -
        (⟨0, 15, 0⟩ : V3)).normSq < UMBRELLA_RADIUS * UMBRELLA_RADIUS ∧
      0 < ((Rain.gravityStep (1/10) { pos := ⟨399/1000, 376/25, 0⟩, vel := ⟨-1, -400, 0⟩ }).pos -
        (⟨0, 15, 0⟩ : V3)).y ∧
      (Rain.gravityStep (1/10) { pos := ⟨399/1000, 376/25, 0⟩, vel := ⟨-1, -400, 0⟩ }).vel.dot
        ((Rain.gravityStep (1/10) { pos := ⟨399/1000, 376/25, 0⟩, vel := ⟨-1, -400, 0⟩ }).pos -
          (⟨0, 15, 0⟩ : V3)) < 0) ∧
    ((updateParticle (fun t => if t = 160801/1000000 then 401/1000 else 0) (1/10) ⟨0, 15, 0⟩
        (1/2) (1/2) (1/2) { pos := ⟨399/1000, 376/25, 0⟩, vel := ⟨-1, -400, 0⟩ }).pos -
      (⟨0, 15, 0⟩ : V3)).normSq = 0 := by
  refine ⟨⟨?_, ?_, ?_⟩, ?_⟩
  · norm_num [gravityStep, V3.normSq, V3.dot, UMBRELLA_RADIUS, GRAVITY]
  · norm_num [gravityStep]
  · norm_num [gravityStep, V3.dot, GRAVITY]
  · norm_num [updateParticle, recycleStep, resetParticle, integrateStep, dragStep, collideStep,
      gravityStep, V3.normSq, V3.dot, UMBRELLA_RADIUS, BOUNCE_FORCE, GRAVITY,
      RAIN_RANGE_X, RAIN_RANGE_Y, RAIN_RANGE_Z]

end Rain

namespace Lightning

/-- State of the lightning (discharge) effect of `RainApp`: the retrigger
countdown `timer`, the current `intensity`, the polyline `bolt`, the number
of points visible in the draw range (`drawCount`), and the material
`opacity`. -/
structure LState where
  timer : ℚ
  intensity : ℚ
  bolt : List V3
  drawCount : ℕ
  opacity : ℚ
deriving DecidableEq, Repr

/-- Loop body of `RainApp.triggerLightning`: `n` remaining segments, point
index `i`, current `x`/`y`, the start `x`, and the per-segment random
lateral offsets `rs`.  Each step descends by `stepY = 3/2`, applies a random
offset in `(-1, 1)`, and pulls `x` halfway back toward `startX` whenever the
lateral drift exceeds `5`. -/
def boltLoop : ℕ → ℕ → ℚ → ℚ → ℚ → (ℕ → ℚ) → List V3
  | 0, _, _, _, _, _ => []
  | n + 1, i, curX, curY, startX, rs =>
    let curY2 := curY - 3/2
    let x1 := curX + (rs i - 1/2) * 2
    let x2 := if 5 < abs (x1 - startX) then x1 + (startX - x1) * (1/2) else x1
    ⟨x2, curY2, 0⟩ :: boltLoop n (i + 1) x2 curY2 startX rs

/-- The polyline generated by `RainApp.triggerLightning`: a start point at a
random `x` in `(-10, 10)` at `y = 15`, followed by `20` jagged segments down
toward `y = -15`. -/
def buildBolt (rX : ℚ) (rs : ℕ → ℚ) : List V3 :=
  let startX := (rX - 1/2) * 20
  ⟨startX, 15, 0⟩ :: boltLoop 20 0 startX 15 startX rs

/-- The lightning part of `RainApp.update`: decrement the timer; on expiry
set `intensity = 1`, rearm the timer with `rT * 5 + 2` and regenerate the
bolt (draw range = all its points); then, if the intensity is positive,
decrement it by `delta * 3`, clamp at `0` and copy it to the material
opacity, and otherwise collapse the draw range to empty. -/
def lightningStep (delta rT rX : ℚ) (rs : ℕ → ℚ) (s : LState) : LState :=
  let t := s.timer - delta
  let s1 :=
    if t ≤ 0 then
      { s with
        timer := rT * 5 + 2
        intensity := 1
        bolt := buildBolt rX rs
        drawCount := (buildBolt rX rs).length }
    else { s with timer := t }
  if 0 < s1.intensity then
    let i2 := s1.intensity - delta * 3
    let i3 := if i2 < 0 then 0 else i2
    { s1 with intensity := i3, opacity := i3 }
  else { s1 with drawCount := 0 }

/-- Iterated `lightningStep`; call `n` uses the random tuple `rands n`
(rearm draw, start `x`, lateral offsets). -/
def lightningRun (delta : ℚ) (rands : ℕ → ℚ × ℚ × (ℕ → ℚ)) : ℕ → LState → LState
  | 0, s => s
  | n + 1, s =>
    lightningStep delta (rands n).1 (rands n).2.1 (rands n).2.2 (lightningRun delta rands n s)

/-- The C5 scenario start state: discharge timer forced to `0`, no bolt yet. -/
def startState : LState := { timer := 0, intensity := 0, bolt := [], drawCount := 0, opacity := 0 }

/-- Auxiliary: the loop emits exactly one point per segment. -/
lemma boltLoop_length (n : ℕ) :
    ∀ (i : ℕ) (curX curY startX : ℚ) (rs : ℕ → ℚ),
      (boltLoop n i curX curY startX rs).length = n := by
  induction n with
  | zero => intro i curX curY startX rs; rfl
  | succ n ih =>
    intro i curX curY startX rs
    simp only [boltLoop, List.length_cons, ih]

/-- Auxiliary: the generated polyline has `21` points. -/
lemma buildBolt_length (rX : ℚ) (rs : ℕ → ℚ) : (buildBolt rX rs).length = 21 := by
  simp only [buildBolt, List.length_cons, boltLoop_length]

/-- Auxiliary: a call in which the timer expires and the fresh intensity
does not yet fade to zero. -/
lemma lightningStep_trigger (delta rT rX : ℚ) (rs : ℕ → ℚ) (tm it : ℚ)
    (bolt : List V3) (dc : ℕ) (op : ℚ)
    (h1 : tm - delta ≤ 0) (h3 : 0 ≤ 1 - delta * 3) :
    lightningStep delta rT rX rs ⟨tm, it, bolt, dc, op⟩ =
      ⟨rT * 5 + 2, 1 - delta * 3, buildBolt rX rs, 21, 1 - delta * 3⟩ := by
  simp only [lightningStep]
  split_ifs <;> simp_all [buildBolt_length] <;> linarith

/-- Auxiliary: a call in which the timer does not expire and the positive
intensity fades without reaching zero from below. -/
lemma lightningStep_fade (delta rT rX : ℚ) (rs : ℕ → ℚ) (tm it : ℚ)
    (bolt : List V3) (dc : ℕ) (op : ℚ)
    (h1 : 0 < tm - delta) (h2 : 0 < it) (h3 : 0 ≤ it - delta * 3) :
    lightningStep delta rT rX rs ⟨tm, it, bolt, dc, op⟩ =
      ⟨tm - delta, it - delta * 3, bolt, dc, it - delta * 3⟩ := by
  simp only [lightningStep]
  split_ifs <;> simp_all <;> linarith

/-- Auxiliary: a call in which the timer does not expire and the intensity
is already zero: the draw range is collapsed. -/
lemma lightningStep_expired (delta rT rX : ℚ) (rs : ℕ → ℚ) (tm it : ℚ)
    (bolt : List V3) (dc : ℕ) (op : ℚ)
    (h1 : 0 < tm - delta) (h2 : it ≤ 0) :
    lightningStep delta rT rX rs ⟨tm, it, bolt, dc, op⟩ =
      ⟨tm - delta, it, bolt, 0, op⟩ := by
  simp only [lightningStep]
  split_ifs <;> simp_all <;> linarith

/-- Auxiliary: closed form of the scenario run while the bolt fades: call
`k + 1` (for `k ≤ 19`) leaves the rearmed timer decremented `k` times, the
intensity at `(19 - k)/20`, and the full draw range. -/
lemma lightningRun_fade_state (rands : ℕ → ℚ × ℚ × (ℕ → ℚ)) (h : 0 ≤ (rands 0).1) :
    ∀ k : ℕ, k ≤ 19 →
      lightningRun (1/60) rands (k + 1) startState =
        { timer := (rands 0).1 * 5 + 2 - (k : ℚ) * (1/60)
          intensity := (19 - (k : ℚ)) / 20
          bolt := buildBolt (rands 0).2.1 (rands 0).2.2
          drawCount := 21
          opacity := (19 - (k : ℚ)) / 20 } := by
  intro k
  induction k with
  | zero =>
    intro _
    show lightningStep (1/60) (rands 0).1 (rands 0).2.1 (rands 0).2.2 startState = _
    have hA : (0 : ℚ) - 1/60 ≤ 0 := by norm_num
    simp only [startState]
    rw [lightningStep_trigger _ _ _ _ _ _ _ _ _ hA (by norm_num)]
    simp only [LState.mk.injEq]
    norm_num
  | succ k ih =>
    intro hk
    have hk19 : k ≤ 19 := by omega
    have hk18 : (k : ℚ) ≤ 18 := by
      have : k ≤ 18 := by omega
      exact_mod_cast this
    show lightningStep (1/60) (rands (k+1)).1 (rands (k+1)).2.1 (rands (k+1)).2.2
      (lightningRun (1/60) rands (k + 1) startState) = _
    rw [ih hk19]
    have hA : 0 < (rands 0).1 * 5 + 2 - (k : ℚ) * (1/60) - 1/60 := by nlinarith [h]
    have hB : 0 < (19 - (k : ℚ)) / 20 := by linarith
    have hC : 0 ≤ (19 - (k : ℚ)) / 20 - 1/60 * 3 := by linarith
    rw [lightningStep_fade _ _ _ _ _ _ _ _ _ hA hB hC]
    simp only [LState.mk.injEq]
    refine ⟨by push_cast; ring, by push_cast; ring, trivial, trivial, by push_cast; ring⟩

/-- C5 counterpart, amended: with the discharge timer at `0`, the first
update call produces a non-empty polyline (21 points) and sets the intensity
to `1.0` at the trigger, but the same call already applies one fade
decrement, so immediately after the call the intensity is `1 - 3 * (1/60)`;
after `1/3 s` of subsequent ticks (20 more calls at `delta = 1/60`) the
intensity is `0.0` and the draw range has been collapsed to empty. -/
theorem lightning_first_fire_and_fade (rands : ℕ → ℚ × ℚ × (ℕ → ℚ))
    (h : 0 ≤ (rands 0).1) :
    (lightningRun (1/60) rands 1 startState).drawCount = 21 ∧
    (lightningRun (1/60) rands 1 startState).intensity = 1 - 3 * (1/60) ∧
    (lightningRun (1/60) rands 20 startState).intensity = 0 ∧
    (lightningRun (1/60) rands 21 startState).intensity = 0 ∧
    (lightningRun (1/60) rands 21 startState).drawCount = 0 := by
  have h0 := lightningRun_fade_state rands h 0 (by norm_num)
  have h20state := lightningRun_fade_state rands h 19 (by norm_num)
  have h21 : lightningRun (1/60) rands 21 startState =
      lightningStep (1/60) (rands 20).1 (rands 20).2.1 (rands 20).2.2
        (lightningRun (1/60) rands 20 startState) := rfl
  norm_num at h0 h20state
  have hA : 0 < (rands 0).1 * 5 + 2 - 19/60 - 1/60 := by nlinarith [h]
  have hB : (0 : ℚ) ≤ 0 := le_refl 0
  refine ⟨by rw [h0], by rw [h0]; norm_num, by rw [h20state], ?_, ?_⟩
  · rw [h21, h20state]
    rw [lightningStep_expired _ _ _ _ _ _ _ _ _ hA hB]
  · rw [h21, h20state]
    rw [lightningStep_expired _ _ _ _ _ _ _ _ _ hA hB]

/-- C5 witness: the amended fade schedule at the all-zero random seed. -/
theorem lightning_first_fire_and_fade_witness :
    (lightningRun (1/60) (fun _ => (0, 0, fun _ => 0)) 1 startState).drawCount = 21 ∧
    (lightningRun (1/60) (fun _ => (0, 0, fun _ => 0)) 21 startState).drawCount = 0 := by
  have h := lightning_first_fire_and_fade (fun _ => (0, 0, fun _ => 0)) (by norm_num)
  exact ⟨h.1, h.2.2.2.2⟩

/-- C5 counterexample: the claim as stated fails — with the timer at `0.0`
and `delta = 1/60`, the first update call does produce the full 21-point
polyline, but the intensity immediately after the call returns is `19/20`,
not `1.0`, because the same call already applies one fade decrement. -/
theorem lightning_intensity_counterexample :
    (lightningStep (1/60) 0 (1/2) (fun _ => 1/2) startState).drawCount = 21 ∧
    (lightningStep (1/60) 0 (1/2) (fun _ => 1/2) startState).intensity = 19/20 ∧
    (lightningStep (1/60) 0 (1/2) (fun _ => 1/2) startState).intensity ≠ 1 := by
  have hA : (0 : ℚ) - 1/60 ≤ 0 := by norm_num
  simp only [startState]
  rw [lightningStep_trigger _ _ _ _ _ _ _ _ _ hA (by norm_num)]
  norm_num

end Lightning

namespace Growth

/-- Population cap of `AvatarNetworkApp`. -/
def MAX_BRANCHES : ℕ := 3000

/-- Base target length of a branch. -/
def BRANCH_LENGTH : ℚ := 6

/-- Growth speed in length units per second. -/
def GROWTH_SPEED : ℚ := 12

/-- Bernoulli success probability of the spawn step. -/
def BRANCH_PROBABILITY : ℚ := 19/20

/-- Base tube radius. -/
def TUBE_RADIUS : ℚ := 12/100

/-- Generation cap: the literal `25` in `AvatarNetworkApp.branchOut`
(named `MAX_GENERATION` by the specification). -/
def MAX_GENERATION : ℕ := 25

/-- One branch segment of `AvatarNetworkApp` (`endP` models the source field
`end`, which is a reserved word in Lean). -/
structure Branch where
  start : V3
  endP : V3
  direction : V3
  age : ℚ
  generation : ℕ
  isGrowing : Bool
  length : ℚ
  targetLength : ℚ
  hue : ℚ
deriving DecidableEq, Repr

/-- The data of one tube mesh in the `branchLines` group: the two path
points, the tessellation segment count, the tube radius, and the material
opacity. -/
structure TubeMesh where
  p0 : V3
  p1 : V3
  tubularSegments : ℤ
  radius : ℚ
  opacity : ℚ
deriving DecidableEq, Repr

/-- The engine state: the `branches` list, the `branchLines.children` meshes
at matching indices, and the accumulated `elapsedTime`. -/
structure GState where
  branches : List Branch
  meshes : List TubeMesh
  elapsedTime : ℚ
deriving DecidableEq, Repr

/-- The per-call random draws consumed by one spawn step: the Bernoulli
roll `rp`, the child-count roll `rn`, and the per-child angle rolls `ras`,
each modelling one `Math.random()` call in `[0,1)`. -/
structure SpawnRand where
  rp : ℚ
  rn : ℚ
  ras : ℕ → ℚ

/-- The transcendental oracles of the growth engine: `sq` models
`Math.sqrt`; `cosA r` and `sinA r` model `Math.cos a` and `Math.sin a` at
the child deflection angle `a = (r - 0.5) * BRANCH_ANGLE * 2` (with
`BRANCH_ANGLE = π/2`, which is not rational and is therefore absorbed into
the oracle); `sinF` models `Math.sin` in the pulse pass. -/
structure Oracles where
  sq : ℚ → ℚ
  cosA : ℚ → ℚ
  sinA : ℚ → ℚ
  sinF : ℚ → ℚ

/-- JS `%` on nonnegative operands, used by the hue formula. -/
def qmod (a b : ℚ) : ℚ := a - b * (Int.floor (a / b) : ℚ)

/-- `THREE.Vector3.normalize` under the square-root oracle. -/
def normalize (sq : ℚ → ℚ) (v : V3) : V3 :=
  let n := sq v.normSq
  ⟨v.x / n, v.y / n, v.z / n⟩

/-- The `Branch` record built by `AvatarNetworkApp.createBranch`: hue shifts
with generation, the target length shrinks by 5% per generation with a
floor of `0.5`, and the stored direction is normalized. -/
def newBranch (sq : ℚ → ℚ) (startP dir : V3) (gen : ℕ) : Branch :=
  { start := startP
    endP := startP
    direction := normalize sq dir
    age := 0
    generation := gen
    isGrowing := true
    length := 0
    targetLength := max (BRANCH_LENGTH * (1 - (gen : ℚ) * (5/100))) (1/2)
    hue := 1/2 + qmod ((gen : ℚ) * (5/100)) (3/10) }

/-- The initial short tube mesh added by `createBranch`: a path from the
start to `start + 0.01 * direction`, `2` tubular segments, base radius,
opacity `0.9`. -/
def newMesh (sq : ℚ → ℚ) (startP dir : V3) : TubeMesh :=
  { p0 := startP
    p1 := startP + ((1/100 : ℚ) • normalize sq dir)
    tubularSegments := 2
    radius := TUBE_RADIUS
    opacity := 9/10 }

/-- `AvatarNetworkApp.createBranch`: silently drops the spawn at the
population cap, otherwise appends exactly one branch and one mesh. -/
def createBranch (sq : ℚ → ℚ) (startP dir : V3) (gen : ℕ) (st : GState) : GState :=
  if MAX_BRANCHES ≤ st.branches.length then st
  else
    { st with
      branches := st.branches ++ [newBranch sq startP dir gen]
      meshes := st.meshes ++ [newMesh sq startP dir] }

/-- Rotation about the `z`-axis (`applyAxisAngle` with axis `(0,0,1)`),
with `c`/`s` the cosine and sine of the angle. -/
def rotZ (c s : ℚ) (v : V3) : V3 :=
  ⟨v.x * c - v.y * s, v.x * s + v.y * c, v.z⟩

/-- One child direction of the spawn step: rotate the parent direction
about `z` by the random deflection angle, force `z = 0`, normalize. -/
def childDir (o : Oracles) (b : Branch) (ra : ℚ) : V3 :=
  let nd := rotZ (o.cosA ra) (o.sinA ra) b.direction
  normalize o.sq ⟨nd.x, nd.y, 0⟩

/-- `AvatarNetworkApp.branchOut`: skip entirely unless the completing
parent's generation is strictly below `MAX_GENERATION` and the Bernoulli
roll does not exceed `BRANCH_PROBABILITY`; otherwise create
`2 + floor(rn * 4)` children at the parent's `endP`, each with generation
`parent + 1`. -/
def branchOut (o : Oracles) (r : SpawnRand) (b : Branch) (st : GState) : GState :=
  if MAX_GENERATION ≤ b.generation then st
  else if BRANCH_PROBABILITY < r.rp then st
  else
    (List.range (2 + Int.floor (r.rn * 4)).toNat).foldl
      (fun s i => createBranch o.sq b.endP (childDir o b (r.ras i)) (b.generation + 1) s) st

/-- The growth phase of one branch in `AvatarNetworkApp.updateBranches`:
while growing, add `GROWTH_SPEED * delta` to the length; on reaching the
target, clamp to it, stop growing, and report that the spawn step is to be
invoked (`true` in the second component). -/
def growBranch (delta : ℚ) (b : Branch) : Branch × Bool :=
  if b.isGrowing then
    let l := b.length + GROWTH_SPEED * delta
    if b.targetLength ≤ l then
      ({ b with length := b.targetLength, isGrowing := false }, true)
    else ({ b with length := l }, false)
  else (b, false)

/-- The tube geometry rebuilt for a growing branch: path from `start` to
`endP`, tessellation `max 2 (floor (length * 4))`, radius shrinking 6% per
generation; the material (and hence opacity) is kept. -/
def tubeGeom (b : Branch) (m : TubeMesh) : TubeMesh :=
  { m with
    p0 := b.start
    p1 := b.endP
    tubularSegments := max 2 (Int.floor (b.length * 4))
    radius := TUBE_RADIUS * (1 - (b.generation : ℚ) * (6/100)) }

/-- The neon pulse opacity: `0.7 + sin(elapsedTime * 3 + age) * 0.3`. -/
def pulse (o : Oracles) (elapsed age : ℚ) : ℚ :=
  7/10 + o.sinF (elapsed * 3 + age) * (3/10)

/-- The body of the `forEach` in `AvatarNetworkApp.updateBranches` at index
`i`: grow the branch (spawning on completion via `branchOut`, which only
appends and reads no slot), recompute `endP`, rebuild the tube mesh at the
same index when it exists, add `delta` to the age, and apply the pulse
opacity using the updated age.  The source updates `age` after the mesh
rebuild, but the rebuild does not read `age`, so folding the age update
into the stored branch is observationally identical. -/
def stepAt (o : Oracles) (delta : ℚ) (rands : ℕ → SpawnRand) (s : GState) (i : ℕ) : GState :=
  match s.branches[i]? with
  | none => s
  | some b =>
    if b.isGrowing then
      let g := growBranch delta b
      let sA := { s with branches := s.branches.set i g.1 }
      let sB := if g.2 then branchOut o (rands i) g.1 sA else sA
      let bF := { g.1 with
        endP := g.1.start + g.1.length • g.1.direction
        age := g.1.age + delta }
      let sC := { sB with branches := sB.branches.set i bF }
      match sC.meshes[i]? with
      | none => sC
      | some m =>
        let m2 := { tubeGeom bF m with opacity := pulse o s.elapsedTime bF.age }
        { sC with meshes := sC.meshes.set i m2 }
    else
      let bF := { b with age := b.age + delta }
      let sC := { s with branches := s.branches.set i bF }
      match sC.meshes[i]? with
      | none => sC
      | some m =>
        { sC with meshes := sC.meshes.set i { m with opacity := pulse o s.elapsedTime bF.age } }

/-- `AvatarNetworkApp.updateBranches`: the `forEach` visits the indices
present when the loop starts (children appended mid-loop are not visited,
matching JS `forEach` semantics). -/
def updateBranches (o : Oracles) (delta : ℚ) (rands : ℕ → SpawnRand) (s : GState) : GState :=
  (List.range s.branches.length).foldl (stepAt o delta rands) s

/-- `AvatarNetworkApp.update`: accumulate elapsed time, then update the
branches. -/
def update (o : Oracles) (delta : ℚ) (rands : ℕ → SpawnRand) (s : GState) : GState :=
  updateBranches o delta rands { s with elapsedTime := s.elapsedTime + delta }

/-- C6: while a segment is growing and the step is nonnegative, its length
is non-decreasing and never exceeds `targetLength` (it is clamped in the
overshooting step); the length equals `targetLength` exactly when
`isGrowing` transitions to false, and the spawn step is invoked (second
component `true`) exactly at that transition; a frozen segment is left
untouched by the growth phase, so the spawn step runs exactly once per
segment. -/
theorem growth_monotonic (delta : ℚ) (b : Branch) (hdel : 0 ≤ delta)
    (hlen : b.isGrowing = true → b.length ≤ b.targetLength) :
    (b.length ≤ (growBranch delta b).1.length) ∧
    (b.isGrowing = true → (growBranch delta b).1.length ≤ b.targetLength) ∧
    (b.isGrowing = true →
      ((growBranch delta b).1.isGrowing = false ↔
        (growBranch delta b).1.length = b.targetLength)) ∧
    ((growBranch delta b).2 = true ↔
      (b.isGrowing = true ∧ (growBranch delta b).1.isGrowing = false)) ∧
    ((growBranch delta b).1.targetLength = b.targetLength) ∧
    (b.isGrowing = false → growBranch delta b = (b, false)) := by
  have hspeed : 0 ≤ GROWTH_SPEED * delta := by
    simp only [GROWTH_SPEED]
    linarith
  by_cases hg : b.isGrowing = true
  · have hl := hlen hg
    by_cases hc : b.targetLength ≤ b.length + GROWTH_SPEED * delta
    · have hEq : growBranch delta b =
          ({ b with length := b.targetLength, isGrowing := false }, true) := by
        simp only [growBranch, hg, if_true, if_pos hc]
      rw [hEq]
      refine ⟨hl, fun _ => le_refl _, fun _ => by simp, by simp [hg], rfl,
        fun hfalse => absurd hg (by simp [hfalse])⟩
    · have hlt : b.length + GROWTH_SPEED * delta < b.targetLength := not_le.mp hc
      have hEq : growBranch delta b =
          ({ b with length := b.length + GROWTH_SPEED * delta }, false) := by
        simp only [growBranch, hg, if_true, if_neg hc]
      rw [hEq]
      refine ⟨by show b.length ≤ b.length + GROWTH_SPEED * delta; linarith,
        fun _ => by show b.length + GROWTH_SPEED * delta ≤ b.targetLength; linarith,
        fun _ => ?_, by simp [hg], rfl,
        fun hfalse => absurd hg (by simp [hfalse])⟩
      constructor
      · intro hfg
        have hfg' : b.isGrowing = false := hfg
        exact absurd hg (by simp [hfg'])
      · intro hle
        have hle' : b.length + GROWTH_SPEED * delta = b.targetLength := hle
        linarith
  · have hg' : b.isGrowing = false := by
      cases hb : b.isGrowing
      · rfl
      · exact absurd hb hg
    have hEq : growBranch delta b = (b, false) := by
      simp [growBranch, hg']
    rw [hEq]
    refine ⟨le_refl _, fun hcon => absurd hcon hg, fun hcon => absurd hcon hg, by simp [hg'],
      rfl, fun _ => rfl⟩

/-- C6 witness: a seed branch with target length `6` grown by half a second
at speed `12` completes exactly at its target. -/
theorem growth_monotonic_witness :
    (⟨⟨0, 0, 0⟩, ⟨0, 0, 0⟩, ⟨1, 0, 0⟩, 0, 0, true, 0, 6, 1/2⟩ : Branch).length ≤
      (growBranch (1/2) ⟨⟨0, 0, 0⟩, ⟨0, 0, 0⟩, ⟨1, 0, 0⟩, 0, 0, true, 0, 6, 1/2⟩).1.length ∧
    (growBranch (1/2) ⟨⟨0, 0, 0⟩, ⟨0, 0, 0⟩, ⟨1, 0, 0⟩, 0, 0, true, 0, 6, 1/2⟩).1.length ≤
      (⟨⟨0, 0, 0⟩, ⟨0, 0, 0⟩, ⟨1, 0, 0⟩, 0, 0, true, 0, 6, 1/2⟩ : Branch).targetLength := by
  have h := growth_monotonic (1/2) ⟨⟨0, 0, 0⟩, ⟨0, 0, 0⟩, ⟨1, 0, 0⟩, 0, 0, true, 0, 6, 1/2⟩
    (by norm_num) (fun _ => by norm_num)
  exact ⟨h.1, h.2.1 rfl⟩

/-- The value stored back into slot `i` by the per-index body: the grown
(or untouched) branch with `endP` recomputed and `age` advanced. -/
def finalBranch (delta : ℚ) (b : Branch) : Branch :=
  if b.isGrowing then
    { (growBranch delta b).1 with
      endP := (growBranch delta b).1.start + (growBranch delta b).1.length •
        (growBranch delta b).1.direction
      age := (growBranch delta b).1.age + delta }
  else { b with age := b.age + delta }

/-- The value stored back into mesh slot `i` by the per-index body: rebuilt
geometry (growing only) plus the pulse opacity. -/
def finalMesh (o : Oracles) (delta elapsed : ℚ) (b : Branch) (m : TubeMesh) : TubeMesh :=
  if b.isGrowing then
    { tubeGeom (finalBranch delta b) m with
      opacity := pulse o elapsed (finalBranch delta b).age }
  else { m with opacity := pulse o elapsed (b.age + delta) }

/-- Auxiliary: `growBranch` touches only `length` and `isGrowing`. -/
lemma growBranch_fields (delta : ℚ) (b : Branch) :
    (growBranch delta b).1.generation = b.generation ∧
    (growBranch delta b).1.start = b.start ∧
    (growBranch delta b).1.direction = b.direction ∧
    (growBranch delta b).1.age = b.age ∧
    (growBranch delta b).1.endP = b.endP := by
  simp only [growBranch]
  split_ifs <;> exact ⟨rfl, rfl, rfl, rfl, rfl⟩

/-- Auxiliary: `createBranch` at the population cap is the identity. -/
lemma createBranch_at_cap (sq : ℚ → ℚ) (startP dir : V3) (gen : ℕ) (st : GState)
    (h : MAX_BRANCHES ≤ st.branches.length) :
    createBranch sq startP dir gen st = st := by
  simp only [createBranch, if_pos h]

/-- Auxiliary: `createBranch` below the cap appends exactly one branch and
one mesh. -/
lemma createBranch_below_cap (sq : ℚ → ℚ) (startP dir : V3) (gen : ℕ) (st : GState)
    (h : st.branches.length < MAX_BRANCHES) :
    createBranch sq startP dir gen st =
      { st with
        branches := st.branches ++ [newBranch sq startP dir gen]
        meshes := st.meshes ++ [newMesh sq startP dir] } := by
  simp only [createBranch, if_neg (not_le.mpr h)]

/-- Auxiliary: case split of `createBranch` as appended tails. -/
lemma createBranch_append (sq : ℚ → ℚ) (startP dir : V3) (gen : ℕ) (st : GState) :
    ∃ tb tm, tb.length = tm.length ∧
      (createBranch sq startP dir gen st).branches = st.branches ++ tb ∧
      (createBranch sq startP dir gen st).meshes = st.meshes ++ tm ∧
      (createBranch sq startP dir gen st).elapsedTime = st.elapsedTime ∧
      (∀ c ∈ tb, c = newBranch sq startP dir gen) := by
  by_cases h : MAX_BRANCHES ≤ st.branches.length
  · refine ⟨[], [], rfl, ?_, ?_, ?_, ?_⟩ <;> simp [createBranch_at_cap sq startP dir gen st h]
  · refine ⟨[newBranch sq startP dir gen], [newMesh sq startP dir], rfl, ?_, ?_, ?_, ?_⟩ <;>
      simp [createBranch_below_cap sq startP dir gen st (not_le.mp h)]

/-- Auxiliary: `createBranch` preserves the population cap. -/
lemma createBranch_len_le (sq : ℚ → ℚ) (startP dir : V3) (gen : ℕ) (st : GState)
    (h : st.branches.length ≤ MAX_BRANCHES) :
    (createBranch sq startP dir gen st).branches.length ≤ MAX_BRANCHES := by
  by_cases hc : MAX_BRANCHES ≤ st.branches.length
  · rw [createBranch_at_cap sq startP dir gen st hc]
    exact h
  · rw [createBranch_below_cap sq startP dir gen st (not_le.mp hc)]
    simp only [List.length_append, List.length_cons, List.length_nil]
    omega

/-- Auxiliary: the spawn fold appends tails of equal lengths, all children
carrying the supplied generation. -/
lemma foldl_createBranch_append (sq : ℚ → ℚ) (p : V3) (dirs : ℕ → V3) (gen : ℕ) :
    ∀ (l : List ℕ) (st : GState), ∃ tb tm, tb.length = tm.length ∧
      ((l.foldl (fun s i => createBranch sq p (dirs i) gen s) st).branches =
        st.branches ++ tb) ∧
      ((l.foldl (fun s i => createBranch sq p (dirs i) gen s) st).meshes =
        st.meshes ++ tm) ∧
      ((l.foldl (fun s i => createBranch sq p (dirs i) gen s) st).elapsedTime =
        st.elapsedTime) ∧
      (∀ c ∈ tb, c.generation = gen) := by
  intro l
  induction l with
  | nil =>
    intro st
    exact ⟨[], [], rfl, by simp, by simp, rfl, by simp⟩
  | cons a l ih =>
    intro st
    obtain ⟨tb0, tm0, hlen0, hb0, hm0, he0, hc0⟩ := createBranch_append sq p (dirs a) gen st
    obtain ⟨tb1, tm1, hlen1, hb1, hm1, he1, hc1⟩ :=
      ih (createBranch sq p (dirs a) gen st)
    refine ⟨tb0 ++ tb1, tm0 ++ tm1, by simp [hlen0, hlen1], ?_, ?_, ?_, ?_⟩
    · simp only [List.foldl_cons, hb1, hb0, List.append_assoc]
    · simp only [List.foldl_cons, hm1, hm0, List.append_assoc]
    · simp only [List.foldl_cons, he1, he0]
    · intro c hc
      rcases List.mem_append.mp hc with h | h
      · rw [hc0 c h]
        rfl
      · exact hc1 c h

/-- Auxiliary: the spawn fold preserves the population cap. -/
lemma foldl_createBranch_len_le (sq : ℚ → ℚ) (p : V3) (dirs : ℕ → V3) (gen : ℕ) :
    ∀ (l : List ℕ) (st : GState), st.branches.length ≤ MAX_BRANCHES →
      (l.foldl (fun s i => createBranch sq p (dirs i) gen s) st).branches.length ≤
        MAX_BRANCHES := by
  intro l
  induction l with
  | nil => intro st h; exact h
  | cons a l ih =>
    intro st h
    exact ih _ (createBranch_len_le sq p (dirs a) gen st h)

/-- Auxiliary: `branchOut` only appends, child tails have matching lengths,
and every child's generation is the parent's plus one and within the bound. -/
lemma branchOut_append (o : Oracles) (r : SpawnRand) (b : Branch) (st : GState) :
    ∃ tb tm, tb.length = tm.length ∧
      (branchOut o r b st).branches = st.branches ++ tb ∧
      (branchOut o r b st).meshes = st.meshes ++ tm ∧
      (branchOut o r b st).elapsedTime = st.elapsedTime ∧
      (∀ c ∈ tb, c.generation = b.generation + 1 ∧ c.generation ≤ MAX_GENERATION) := by
  by_cases h1 : MAX_GENERATION ≤ b.generation
  · refine ⟨[], [], rfl, ?_, ?_, ?_, ?_⟩ <;> simp [branchOut, if_pos h1]
  · by_cases h2 : BRANCH_PROBABILITY < r.rp
    · refine ⟨[], [], rfl, ?_, ?_, ?_, ?_⟩ <;> simp [branchOut, if_neg h1, if_pos h2]
    · obtain ⟨tb, tm, hlen, hb, hm, he, hc⟩ := foldl_createBranch_append o.sq b.endP
        (fun i => childDir o b (r.ras i)) (b.generation + 1)
        (List.range (2 + Int.floor (r.rn * 4)).toNat) st
      refine ⟨tb, tm, hlen, ?_, ?_, ?_, ?_⟩
      · simp only [branchOut, if_neg h1, if_neg h2]
        exact hb
      · simp only [branchOut, if_neg h1, if_neg h2]
        exact hm
      · simp only [branchOut, if_neg h1, if_neg h2]
        exact he
      · intro c hcm
        refine ⟨hc c hcm, ?_⟩
        rw [hc c hcm]
        omega

/-- Auxiliary: `branchOut` preserves the population cap. -/
lemma branchOut_len_le (o : Oracles) (r : SpawnRand) (b : Branch) (st : GState)
    (h : st.branches.length ≤ MAX_BRANCHES) :
    (branchOut o r b st).branches.length ≤ MAX_BRANCHES := by
  by_cases h1 : MAX_GENERATION ≤ b.generation
  · simp only [branchOut, if_pos h1]
    exact h
  · by_cases h2 : BRANCH_PROBABILITY < r.rp
    · simp only [branchOut, if_neg h1, if_pos h2]
      exact h
    · simp only [branchOut, if_neg h1, if_neg h2]
      exact foldl_createBranch_len_le o.sq b.endP (fun i => childDir o b (r.ras i))
        (b.generation + 1) (List.range (2 + Int.floor (r.rn * 4)).toNat) st h

/-- Auxiliary: shape of one `forEach` body execution.  Either the index is
out of range and nothing happens, or slot `i` is overwritten with the grown
branch, spawned children (each one generation deeper, within the bound) are
appended, the mesh slot `i` (when present) is overwritten with the rebuilt
pulsing mesh, the mesh list grows by exactly as many entries as the branch
list, and the elapsed time is untouched. -/
lemma stepAt_shape (o : Oracles) (delta : ℚ) (rands : ℕ → SpawnRand) (s : GState) (i : ℕ) :
    (stepAt o delta rands s i = s ∧ s.branches[i]? = none) ∨
    ∃ b tb, s.branches[i]? = some b ∧
      (∀ c ∈ tb, c.generation = b.generation + 1 ∧ c.generation ≤ MAX_GENERATION) ∧
      (s.branches.length ≤ MAX_BRANCHES → s.branches.length + tb.length ≤ MAX_BRANCHES) ∧
      (stepAt o delta rands s i).branches = (s.branches.set i (finalBranch delta b)) ++ tb ∧
      (stepAt o delta rands s i).elapsedTime = s.elapsedTime ∧
      ∃ tm : List TubeMesh, tm.length = tb.length ∧
        ((s.meshes[i]? = none ∧ (stepAt o delta rands s i).meshes = s.meshes ++ tm) ∨
         (∃ m, s.meshes[i]? = some m ∧
           (stepAt o delta rands s i).meshes =
             (s.meshes.set i (finalMesh o delta s.elapsedTime b m)) ++ tm)) := by
  rcases hsb : s.branches[i]? with _ | b
  · left
    exact ⟨by simp only [stepAt, hsb], rfl⟩
  · right
    have hilen : i < s.branches.length := (List.getElem?_eq_some.mp hsb).1
    by_cases hg : b.isGrowing = true
    · -- growing segment
      have hfb : finalBranch delta b =
          { (growBranch delta b).1 with
            endP := (growBranch delta b).1.start + (growBranch delta b).1.length •
              (growBranch delta b).1.direction
            age := (growBranch delta b).1.age + delta } := by
        unfold finalBranch
        rw [if_pos hg]
      set sB : GState :=
        (if (growBranch delta b).2 then
          branchOut o (rands i) (growBranch delta b).1
            { s with branches := s.branches.set i (growBranch delta b).1 }
        else
          { s with branches := s.branches.set i (growBranch delta b).1 }) with hsBdef
      obtain ⟨tb, tm, hlen, hBb, hBm, hBe, hBc, hBcap⟩ :
          ∃ tb tm, tb.length = tm.length ∧
            sB.branches = s.branches.set i (growBranch delta b).1 ++ tb ∧
            sB.meshes = s.meshes ++ tm ∧
            sB.elapsedTime = s.elapsedTime ∧
            (∀ c ∈ tb, c.generation = b.generation + 1 ∧ c.generation ≤ MAX_GENERATION) ∧
            (s.branches.length ≤ MAX_BRANCHES →
              s.branches.length + tb.length ≤ MAX_BRANCHES) := by
        by_cases hsp : (growBranch delta b).2 = true
        · rw [hsBdef, if_pos hsp]
          obtain ⟨tb, tm, h1, h2, h3, h4, h5⟩ := branchOut_append o (rands i)
            (growBranch delta b).1 { s with branches := s.branches.set i (growBranch delta b).1 }
          refine ⟨tb, tm, h1, h2, h3, h4, fun c hc => ?_, fun hc => ?_⟩
          · have h6 := h5 c hc
            rwa [(growBranch_fields delta b).1] at h6
          · have hcap' := branchOut_len_le o (rands i) (growBranch delta b).1
              { s with branches := s.branches.set i (growBranch delta b).1 }
              (by simpa [List.length_set] using hc)
            rw [h2] at hcap'
            simpa [List.length_set, List.length_append] using hcap'
        · rw [hsBdef, if_neg hsp]
          exact ⟨[], [], rfl, by simp, by simp, rfl, by simp, fun hc => by simpa⟩
      have hstep : stepAt o delta rands s i =
          (match sB.meshes[i]? with
          | none => { sB with branches := sB.branches.set i (finalBranch delta b) }
          | some m =>
            { sB with
              branches := sB.branches.set i (finalBranch delta b)
              meshes := sB.meshes.set i
                { tubeGeom (finalBranch delta b) m with
                  opacity := pulse o s.elapsedTime (finalBranch delta b).age } }) := by
        rw [hfb]
        simp only [stepAt, hsb]
        rw [if_pos hg]
      have hbranches : ∀ (x : List Branch),
          x = sB.branches.set i (finalBranch delta b) →
          x = s.branches.set i (finalBranch delta b) ++ tb := by
        intro x hx
        rw [hx, hBb, List.set_append_left _ _ (by rw [List.length_set]; exact hilen),
          List.set_set]
      rcases hmesh : s.meshes[i]? with _ | m
      · have hslen : s.meshes.length ≤ i := List.getElem?_eq_none_iff.mp hmesh
        rcases hm2 : sB.meshes[i]? with _ | mm
        · refine ⟨b, tb, rfl, hBc, hBcap, ?_, ?_, tm, hlen.symm, Or.inl ⟨rfl, ?_⟩⟩
          · simp only [hstep, hm2]
            exact hbranches _ rfl
          · simp only [hstep, hm2]
            exact hBe
          · simp only [hstep, hm2]
            exact hBm
        · refine ⟨b, tb, rfl, hBc, hBcap, ?_, ?_,
            tm.set (i - s.meshes.length)
              { tubeGeom (finalBranch delta b) mm with
                opacity := pulse o s.elapsedTime (finalBranch delta b).age },
            by rw [List.length_set]; exact hlen.symm, Or.inl ⟨rfl, ?_⟩⟩
          · simp only [hstep, hm2]
            exact hbranches _ rfl
          · simp only [hstep, hm2]
            exact hBe
          · simp only [hstep, hm2]
            rw [hBm, List.set_append_right _ _ hslen]
      · have hmlen : i < s.meshes.length := (List.getElem?_eq_some.mp hmesh).1
        have hm2 : sB.meshes[i]? = some m := by
          rw [hBm, List.getElem?_append_left hmlen]
          exact hmesh
        have hfm : finalMesh o delta s.elapsedTime b m =
            { tubeGeom (finalBranch delta b) m with
              opacity := pulse o s.elapsedTime (finalBranch delta b).age } := by
          unfold finalMesh
          rw [if_pos hg]
        refine ⟨b, tb, rfl, hBc, hBcap, ?_, ?_, tm, hlen.symm, Or.inr ⟨m, rfl, ?_⟩⟩
        · simp only [hstep, hm2]
          exact hbranches _ rfl
        · simp only [hstep, hm2]
          exact hBe
        · simp only [hstep, hm2]
          rw [hBm, List.set_append_left _ _ hmlen, hfm]
    · -- frozen segment
      have hfb : finalBranch delta b = { b with age := b.age + delta } := by
        unfold finalBranch
        rw [if_neg hg]
      have hstep : stepAt o delta rands s i =
          (match s.meshes[i]? with
          | none => { s with branches := s.branches.set i (finalBranch delta b) }
          | some m =>
            { s with
              branches := s.branches.set i (finalBranch delta b)
              meshes := s.meshes.set i
                { m with opacity := pulse o s.elapsedTime (b.age + delta) } }) := by
        rw [hfb]
        simp only [stepAt, hsb]
        rw [if_neg hg]
      rcases hmesh : s.meshes[i]? with _ | m
      · refine ⟨b, [], rfl, by simp, fun hc => by simpa, ?_, ?_, [], rfl, Or.inl ⟨rfl, ?_⟩⟩ <;>
          simp [hstep, hmesh]
      · have hfm : finalMesh o delta s.elapsedTime b m =
            { m with opacity := pulse o s.elapsedTime (b.age + delta) } := by
          unfold finalMesh
          rw [if_neg hg]
        refine ⟨b, [], rfl, by simp, fun hc => by simpa, ?_, ?_, [], rfl, Or.inr ⟨m, rfl, ?_⟩⟩ <;>
          simp [hstep, hmesh, hfm]

/-- Auxiliary: the stored branch keeps its generation. -/
lemma finalBranch_generation (delta : ℚ) (b : Branch) :
    (finalBranch delta b).generation = b.generation := by
  unfold finalBranch
  split_ifs with h
  · exact (growBranch_fields delta b).1
  · rfl

/-- Auxiliary: one body execution never touches the elapsed time. -/
lemma stepAt_elapsed (o : Oracles) (delta : ℚ) (rands : ℕ → SpawnRand) (s : GState) (i : ℕ) :
    (stepAt o delta rands s i).elapsedTime = s.elapsedTime := by
  rcases stepAt_shape o delta rands s i with ⟨h, _⟩ | ⟨b, tb, _, _, _, _, he, _⟩
  · rw [h]
  · exact he

/-- Auxiliary: one body execution grows both lists by the same amount. -/
lemma stepAt_lengths (o : Oracles) (delta : ℚ) (rands : ℕ → SpawnRand) (s : GState) (i : ℕ) :
    ∃ k, (stepAt o delta rands s i).branches.length = s.branches.length + k ∧
      (stepAt o delta rands s i).meshes.length = s.meshes.length + k := by
  rcases stepAt_shape o delta rands s i with ⟨h, _⟩ | ⟨b, tb, hsb, hgen, hcap, hbr, he, tm, hlen, hm⟩
  · exact ⟨0, by rw [h, Nat.add_zero], by rw [h, Nat.add_zero]⟩
  · refine ⟨tb.length, ?_, ?_⟩
    · rw [hbr]
      simp [List.length_append, List.length_set]
    · rcases hm with ⟨_, hm⟩ | ⟨m, _, hm⟩ <;> rw [hm] <;>
        simp [List.length_append, List.length_set, hlen]

/-- Auxiliary: one body execution respects the population cap. -/
lemma stepAt_cap (o : Oracles) (delta : ℚ) (rands : ℕ → SpawnRand) (s : GState) (i : ℕ)
    (h : s.branches.length ≤ MAX_BRANCHES) :
    (stepAt o delta rands s i).branches.length ≤ MAX_BRANCHES := by
  rcases stepAt_shape o delta rands s i with ⟨heq, _⟩ | ⟨b, tb, hsb, hgen, hcap, hbr, _⟩
  · rw [heq]
    exact h
  · rw [hbr]
    have := hcap h
    simp only [List.length_append, List.length_set]
    omega

/-- Auxiliary: one body execution preserves the generation bound. -/
lemma stepAt_gen_le (o : Oracles) (delta : ℚ) (rands : ℕ → SpawnRand) (s : GState) (i : ℕ)
    (hinv : ∀ c ∈ s.branches, c.generation ≤ MAX_GENERATION) :
    ∀ c ∈ (stepAt o delta rands s i).branches, c.generation ≤ MAX_GENERATION := by
  rcases stepAt_shape o delta rands s i with ⟨h, _⟩ | ⟨b, tb, hsb, hgen, hcap, hbr, _⟩
  · rw [h]
    exact hinv
  · intro c hc
    rw [hbr] at hc
    rcases List.mem_append.mp hc with hc | hc
    · rcases List.mem_or_eq_of_mem_set hc with hc | hc
      · exact hinv c hc
      · rw [hc, finalBranch_generation]
        obtain ⟨hlt, heq⟩ := List.getElem?_eq_some.mp hsb
        exact hinv b (heq ▸ List.getElem_mem hlt)
    · exact (hgen c hc).2

/-- Auxiliary: one body execution at index `j` does not change the entries
at a different index `i` (present in both lists). -/
lemma stepAt_preserve_ne (o : Oracles) (delta : ℚ) (rands : ℕ → SpawnRand) (s : GState)
    (j i : ℕ) (hne : j ≠ i) (hib : i < s.branches.length) (him : i < s.meshes.length) :
    (stepAt o delta rands s j).branches[i]? = s.branches[i]? ∧
    (stepAt o delta rands s j).meshes[i]? = s.meshes[i]? := by
  rcases stepAt_shape o delta rands s j with ⟨h, _⟩ | ⟨b, tb, hsb, hgen, hcap, hbr, he, tm, hlen, hm⟩
  · rw [h]
    exact ⟨rfl, rfl⟩
  · constructor
    · rw [hbr, List.getElem?_append_left (by rw [List.length_set]; exact hib),
        List.getElem?_set_ne hne]
    · rcases hm with ⟨_, hm⟩ | ⟨m, _, hm⟩
      · rw [hm, List.getElem?_append_left him]
      · rw [hm, List.getElem?_append_left (by rw [List.length_set]; exact him),
          List.getElem?_set_ne hne]

/-- Auxiliary: folding the body over any index list keeps the elapsed time. -/
lemma foldl_stepAt_elapsed (o : Oracles) (delta : ℚ) (rands : ℕ → SpawnRand) :
    ∀ (l : List ℕ) (s : GState),
      (l.foldl (stepAt o delta rands) s).elapsedTime = s.elapsedTime := by
  intro l
  induction l with
  | nil => intro s; rfl
  | cons a l ih =>
    intro s
    rw [List.foldl_cons, ih, stepAt_elapsed]

/-- Auxiliary: folding the body grows both lists by the same amount. -/
lemma foldl_stepAt_lengths (o : Oracles) (delta : ℚ) (rands : ℕ → SpawnRand) :
    ∀ (l : List ℕ) (s : GState),
      ∃ k, (l.foldl (stepAt o delta rands) s).branches.length = s.branches.length + k ∧
        (l.foldl (stepAt o delta rands) s).meshes.length = s.meshes.length + k := by
  intro l
  induction l with
  | nil => intro s; exact ⟨0, rfl, rfl⟩
  | cons a l ih =>
    intro s
    obtain ⟨k1, hb1, hm1⟩ := stepAt_lengths o delta rands s a
    obtain ⟨k2, hb2, hm2⟩ := ih (stepAt o delta rands s a)
    exact ⟨k1 + k2, by rw [List.foldl_cons, hb2, hb1]; omega,
      by rw [List.foldl_cons, hm2, hm1]; omega⟩

/-- Auxiliary: folding the body respects the population cap. -/
lemma foldl_stepAt_cap (o : Oracles) (delta : ℚ) (rands : ℕ → SpawnRand) :
    ∀ (l : List ℕ) (s : GState), s.branches.length ≤ MAX_BRANCHES →
      (l.foldl (stepAt o delta rands) s).branches.length ≤ MAX_BRANCHES := by
  intro l
  induction l with
  | nil => intro s h; exact h
  | cons a l ih =>
    intro s h
    exact ih _ (stepAt_cap o delta rands s a h)

/-- Auxiliary: folding the body preserves the generation bound. -/
lemma foldl_stepAt_gen_le (o : Oracles) (delta : ℚ) (rands : ℕ → SpawnRand) :
    ∀ (l : List ℕ) (s : GState), (∀ c ∈ s.branches, c.generation ≤ MAX_GENERATION) →
      ∀ c ∈ (l.foldl (stepAt o delta rands) s).branches, c.generation ≤ MAX_GENERATION := by
  intro l
  induction l with
  | nil => intro s h; exact h
  | cons a l ih =>
    intro s h
    exact ih _ (stepAt_gen_le o delta rands s a h)

/-- Auxiliary: folding the body over indices different from `i` preserves
the entries at `i`. -/
lemma foldl_stepAt_preserve (o : Oracles) (delta : ℚ) (rands : ℕ → SpawnRand) (i : ℕ) :
    ∀ (l : List ℕ), (∀ j ∈ l, j ≠ i) → ∀ (s : GState),
      i < s.branches.length → i < s.meshes.length →
      ((l.foldl (stepAt o delta rands) s).branches[i]? = s.branches[i]? ∧
       (l.foldl (stepAt o delta rands) s).meshes[i]? = s.meshes[i]? ∧
       i < (l.foldl (stepAt o delta rands) s).branches.length ∧
       i < (l.foldl (stepAt o delta rands) s).meshes.length) := by
  intro l
  induction l with
  | nil => intro _ s hib him; exact ⟨rfl, rfl, hib, him⟩
  | cons a l ih =>
    intro hj s hib him
    obtain ⟨k, hbk, hmk⟩ := stepAt_lengths o delta rands s a
    have hib' : i < (stepAt o delta rands s a).branches.length := by omega
    have him' : i < (stepAt o delta rands s a).meshes.length := by omega
    obtain ⟨hp1, hp2⟩ := stepAt_preserve_ne o delta rands s a i (hj a (by simp)) hib him
    obtain ⟨hq1, hq2, hq3, hq4⟩ := ih (fun j hjl => hj j (by simp [hjl]))
      (stepAt o delta rands s a) hib' him'
    exact ⟨by rw [List.foldl_cons, hq1, hp1], by rw [List.foldl_cons, hq2, hp2],
      by rw [List.foldl_cons]; exact hq3, by rw [List.foldl_cons]; exact hq4⟩

/-- Auxiliary: what one whole `update` call does at an index that holds a
branch and a mesh: the branch slot receives `finalBranch` and the mesh slot
receives `finalMesh`, evaluated at the already-incremented elapsed time. -/
lemma update_at_index (o : Oracles) (delta : ℚ) (rands : ℕ → SpawnRand) (s : GState)
    (i : ℕ) (b : Branch) (m : TubeMesh)
    (hb : s.branches[i]? = some b) (hm : s.meshes[i]? = some m) :
    (update o delta rands s).branches[i]? = some (finalBranch delta b) ∧
    (update o delta rands s).meshes[i]? =
      some (finalMesh o delta (s.elapsedTime + delta) b m) := by
  have hib : i < s.branches.length := (List.getElem?_eq_some.mp hb).1
  have him : i < s.meshes.length := (List.getElem?_eq_some.mp hm).1
  obtain ⟨k, hk⟩ : ∃ k, s.branches.length = i + 1 + k := ⟨s.branches.length - i - 1, by omega⟩
  have hrange : List.range s.branches.length =
      (List.range i ++ [i]) ++ (List.range k).map ((i + 1) + ·) := by
    rw [hk, List.range_add (i + 1) k, List.range_succ]
  have hupd : update o delta rands s =
      ((List.range k).map ((i + 1) + ·)).foldl (stepAt o delta rands)
        (stepAt o delta rands
          ((List.range i).foldl (stepAt o delta rands)
            { s with elapsedTime := s.elapsedTime + delta }) i) := by
    show updateBranches o delta rands { s with elapsedTime := s.elapsedTime + delta } = _
    rw [updateBranches]
    show (List.range s.branches.length).foldl (stepAt o delta rands) _ = _
    rw [hrange, List.foldl_append, List.foldl_append, List.foldl_cons, List.foldl_nil]
  set s0 : GState := { s with elapsedTime := s.elapsedTime + delta } with hs0
  obtain ⟨hp1, hp2, hp3, hp4⟩ := foldl_stepAt_preserve o delta rands i (List.range i)
    (fun j hj => by have := List.mem_range.mp hj; omega) s0 hib him
  set s1 : GState := (List.range i).foldl (stepAt o delta rands) s0 with hs1
  have hs1e : s1.elapsedTime = s.elapsedTime + delta := foldl_stepAt_elapsed o delta rands _ s0
  have hb1 : s1.branches[i]? = some b := by rw [hp1]; exact hb
  have hm1 : s1.meshes[i]? = some m := by rw [hp2]; exact hm
  rcases stepAt_shape o delta rands s1 i with ⟨_, hnone⟩ | ⟨b', tb, hsb', hgen, hcap, hbr, he, tm, hlen, hmm⟩
  · rw [hb1] at hnone
    exact absurd hnone (by simp)
  · have hbb : b' = b := by
      rw [hb1] at hsb'
      exact (Option.some.inj hsb').symm
    rw [hbb] at hbr hmm
    have hstep_b : (stepAt o delta rands s1 i).branches[i]? = some (finalBranch delta b) := by
      rw [hbr, List.getElem?_append_left (by rw [List.length_set]; exact hp3),
        List.getElem?_set_eq_of_lt _ hp3]
    have hstep_m : (stepAt o delta rands s1 i).meshes[i]? =
        some (finalMesh o delta (s.elapsedTime + delta) b m) := by
      rcases hmm with ⟨hnone, _⟩ | ⟨m', hsome', hmesh'⟩
      · rw [hm1] at hnone
        exact absurd hnone (by simp)
      · have hmmeq : m' = m := by
          rw [hm1] at hsome'
          exact (Option.some.inj hsome').symm
        rw [hmmeq] at hmesh'
        rw [hmesh', List.getElem?_append_left (by rw [List.length_set]; exact hp4),
          List.getElem?_set_eq_of_lt _ hp4, hs1e]
    obtain ⟨k2, hk2b, hk2m⟩ := stepAt_lengths o delta rands s1 i
    obtain ⟨hq1, hq2, _, _⟩ := foldl_stepAt_preserve o delta rands i
      ((List.range k).map ((i + 1) + ·))
      (fun j hj => by
        obtain ⟨x, _, hx⟩ := List.mem_map.mp hj
        omega)
      (stepAt o delta rands s1 i) (by omega) (by omega)
    rw [hupd]
    exact ⟨by rw [hq1]; exact hstep_b, by rw [hq2]; exact hstep_m⟩

/-- Auxiliary: the slot value for a frozen segment only advances the age. -/
lemma finalBranch_frozen (delta : ℚ) (b : Branch) (hg : b.isGrowing = false) :
    finalBranch delta b = { b with age := b.age + delta } := by
  unfold finalBranch
  rw [if_neg (by simp [hg])]

/-- Auxiliary: the mesh value for a frozen segment only updates the pulse
opacity. -/
lemma finalMesh_frozen (o : Oracles) (delta e : ℚ) (b : Branch) (m : TubeMesh)
    (hg : b.isGrowing = false) :
    finalMesh o delta e b m = { m with opacity := pulse o e (b.age + delta) } := by
  unfold finalMesh
  rw [if_neg (by simp [hg])]

/-- Auxiliary: the mesh value for a growing segment is the tube geometry of
the stored branch with the pulse opacity; the previous mesh data is fully
overwritten. -/
lemma finalMesh_growing (o : Oracles) (delta e : ℚ) (b : Branch) (m : TubeMesh)
    (hg : b.isGrowing = true) :
    finalMesh o delta e b m =
      ⟨(finalBranch delta b).start, (finalBranch delta b).endP,
        max 2 (Int.floor ((finalBranch delta b).length * 4)),
        TUBE_RADIUS * (1 - ((finalBranch delta b).generation : ℚ) * (6/100)),
        pulse o e (finalBranch delta b).age⟩ := by
  unfold finalMesh tubeGeom
  rw [if_pos hg]

/-- C7: the generation bound.  A full update preserves the invariant that
every segment's generation is at most `MAX_GENERATION = 25`; the spawn step
is a no-op whenever the parent's generation has reached the maximum or the
Bernoulli roll exceeds `BRANCH_PROBABILITY = 0.95`; and every branch present
after a spawn step is either an old branch or a child whose generation is
the parent's plus one and still within the bound. -/
theorem growth_generation_bound (o : Oracles) (delta : ℚ) (rands : ℕ → SpawnRand)
    (s : GState) (r : SpawnRand)
    (hinv : ∀ c ∈ s.branches, c.generation ≤ MAX_GENERATION) :
    (∀ c ∈ (update o delta rands s).branches, c.generation ≤ MAX_GENERATION) ∧
    (∀ (b : Branch) (st : GState), MAX_GENERATION ≤ b.generation → branchOut o r b st = st) ∧
    (∀ (b : Branch) (st : GState), BRANCH_PROBABILITY < r.rp → branchOut o r b st = st) ∧
    (∀ (b : Branch) (st : GState), ∀ c ∈ (branchOut o r b st).branches,
      c ∈ st.branches ∨ (c.generation = b.generation + 1 ∧ c.generation ≤ MAX_GENERATION)) := by
  refine ⟨?_, ?_, ?_, ?_⟩
  · exact foldl_stepAt_gen_le o delta rands _ _ hinv
  · intro b st h1
    simp only [branchOut, if_pos h1]
  · intro b st h2
    by_cases h1 : MAX_GENERATION ≤ b.generation
    · simp only [branchOut, if_pos h1]
    · simp only [branchOut, if_neg h1, if_pos h2]
  · intro b st c hc
    obtain ⟨tb, tm, hlen, hbr, hms, he, hcc⟩ := branchOut_append o r b st
    rw [hbr] at hc
    rcases List.mem_append.mp hc with h | h
    · exact Or.inl h
    · exact Or.inr (hcc c h)

/-- C7 witness: a spawn step on a parent already at the generation cap is
dropped, and the empty population trivially satisfies the invariant after
an update. -/
theorem growth_generation_bound_witness :
    branchOut ⟨fun _ => 0, fun _ => 0, fun _ => 0, fun _ => 0⟩ ⟨0, 0, fun _ => 0⟩
        ⟨⟨0, 0, 0⟩, ⟨0, 0, 0⟩, ⟨1, 0, 0⟩, 0, 25, false, 6, 6, 1/2⟩ ⟨[], [], 0⟩ =
      ⟨[], [], 0⟩ :=
  (growth_generation_bound ⟨fun _ => 0, fun _ => 0, fun _ => 0, fun _ => 0⟩ (1/60)
    (fun _ => ⟨0, 0, fun _ => 0⟩) ⟨[], [], 0⟩ ⟨0, 0, fun _ => 0⟩
    (by intro c hc; simp at hc)).2.1
    ⟨⟨0, 0, 0⟩, ⟨0, 0, 0⟩, ⟨1, 0, 0⟩, 0, 25, false, 6, 6, 1/2⟩ ⟨[], [], 0⟩
    (by norm_num [MAX_GENERATION])

/-- C8: the population cap.  A full update never takes the segment count
above `MAX_BRANCHES = 3000`, and once the cap is reached `createBranch`
returns the state entirely unchanged — no segment, no mesh, no error. -/
theorem growth_population_cap (o : Oracles) (delta : ℚ) (rands : ℕ → SpawnRand)
    (s : GState) (sq : ℚ → ℚ) (p d : V3) (g : ℕ)
    (hcap : s.branches.length ≤ MAX_BRANCHES) :
    ((update o delta rands s).branches.length ≤ MAX_BRANCHES) ∧
    (∀ st : GState, MAX_BRANCHES ≤ st.branches.length → createBranch sq p d g st = st) := by
  exact ⟨foldl_stepAt_cap o delta rands _ _ hcap,
    fun st h => createBranch_at_cap sq p d g st h⟩

/-- C8 witness: a creation attempt on a state holding exactly 3000 segments
returns the state unchanged. -/
theorem growth_population_cap_witness :
    createBranch (fun _ => 0) ⟨0, 0, 0⟩ ⟨1, 0, 0⟩ 0
        ⟨List.replicate 3000 ⟨⟨0, 0, 0⟩, ⟨0, 0, 0⟩, ⟨1, 0, 0⟩, 0, 0, false, 6, 6, 1/2⟩, [], 0⟩ =
      ⟨List.replicate 3000 ⟨⟨0, 0, 0⟩, ⟨0, 0, 0⟩, ⟨1, 0, 0⟩, 0, 0, false, 6, 6, 1/2⟩, [], 0⟩ :=
  (growth_population_cap ⟨fun _ => 0, fun _ => 0, fun _ => 0, fun _ => 0⟩ (1/60)
    (fun _ => ⟨0, 0, fun _ => 0⟩) ⟨[], [], 0⟩ (fun _ => 0) ⟨0, 0, 0⟩ ⟨1, 0, 0⟩ 0
    (by simp [MAX_BRANCHES])).2
    ⟨List.replicate 3000 ⟨⟨0, 0, 0⟩, ⟨0, 0, 0⟩, ⟨1, 0, 0⟩, 0, 0, false, 6, 6, 1/2⟩, [], 0⟩
    (by show MAX_BRANCHES ≤ (List.replicate 3000 _).length
        rw [List.length_replicate, MAX_BRANCHES])

/-- C9: a frozen segment.  Once `isGrowing` is false, a full update leaves
`start`, `endP`, `direction`, `length`, `targetLength`, `generation` and
`hue` unchanged (only `age` advances by `delta`), its mesh only receives the
cosmetic pulse opacity, and the segment is never removed (the slot still
answers, and the population never shrinks). -/
theorem growth_frozen_segment (o : Oracles) (delta : ℚ) (rands : ℕ → SpawnRand)
    (s : GState) (i : ℕ) (b : Branch) (m : TubeMesh)
    (hb : s.branches[i]? = some b) (hg : b.isGrowing = false)
    (hm : s.meshes[i]? = some m) :
    (update o delta rands s).branches[i]? = some { b with age := b.age + delta } ∧
    (update o delta rands s).meshes[i]? =
      some { m with opacity := pulse o (s.elapsedTime + delta) (b.age + delta) } ∧
    s.branches.length ≤ (update o delta rands s).branches.length := by
  obtain ⟨h1, h2⟩ := update_at_index o delta rands s i b m hb hm
  refine ⟨?_, ?_, ?_⟩
  · rw [h1, finalBranch_frozen delta b hg]
  · rw [h2, finalMesh_frozen o delta (s.elapsedTime + delta) b m hg]
  · obtain ⟨k, hk1, _⟩ := foldl_stepAt_lengths o delta rands
      (List.range s.branches.length) { s with elapsedTime := s.elapsedTime + delta }
    have hud : (update o delta rands s).branches.length = s.branches.length + k := hk1
    omega

/-- C9 witness: a concrete frozen segment keeps all fields except the age
after one update. -/
theorem growth_frozen_segment_witness :
    (update ⟨fun _ => 0, fun _ => 0, fun _ => 0, fun _ => 0⟩ (1/60)
        (fun _ => ⟨0, 0, fun _ => 0⟩)
        ⟨[⟨⟨0, 0, 0⟩, ⟨6, 0, 0⟩, ⟨1, 0, 0⟩, 2, 3, false, 6, 6, 1/2⟩],
          [⟨⟨0, 0, 0⟩, ⟨6, 0, 0⟩, 24, 12/100, 9/10⟩], 0⟩).branches[0]? =
      some ⟨⟨0, 0, 0⟩, ⟨6, 0, 0⟩, ⟨1, 0, 0⟩, 2 + 1/60, 3, false, 6, 6, 1/2⟩ := by
  have h := growth_frozen_segment ⟨fun _ => 0, fun _ => 0, fun _ => 0, fun _ => 0⟩ (1/60)
    (fun _ => ⟨0, 0, fun _ => 0⟩)
    ⟨[⟨⟨0, 0, 0⟩, ⟨6, 0, 0⟩, ⟨1, 0, 0⟩, 2, 3, false, 6, 6, 1/2⟩],
      [⟨⟨0, 0, 0⟩, ⟨6, 0, 0⟩, 24, 12/100, 9/10⟩], 0⟩ 0
    ⟨⟨0, 0, 0⟩, ⟨6, 0, 0⟩, ⟨1, 0, 0⟩, 2, 3, false, 6, 6, 1/2⟩
    ⟨⟨0, 0, 0⟩, ⟨6, 0, 0⟩, 24, 12/100, 9/10⟩ rfl rfl rfl
  exact h.1

/-- C10: index alignment between the segment list and the mesh group.  The
mesh count always equals the segment count: creation appends exactly one of
each below the cap and neither at the cap; a full update preserves the
equality; and under the equality, the mesh slot updated at index `i` during
the per-tick pass is exactly the tube geometry of the (updated) segment at
index `i`. -/
theorem growth_mesh_alignment (o : Oracles) (delta : ℚ) (rands : ℕ → SpawnRand)
    (s : GState) (sq : ℚ → ℚ) (p d : V3) (g : ℕ)
    (halign : s.meshes.length = s.branches.length) :
    ((createBranch sq p d g s).meshes.length = (createBranch sq p d g s).branches.length) ∧
    (s.branches.length < MAX_BRANCHES →
      (createBranch sq p d g s).branches = s.branches ++ [newBranch sq p d g] ∧
      (createBranch sq p d g s).meshes = s.meshes ++ [newMesh sq p d]) ∧
    (MAX_BRANCHES ≤ s.branches.length → createBranch sq p d g s = s) ∧
    ((update o delta rands s).meshes.length = (update o delta rands s).branches.length) ∧
    (∀ (i : ℕ) (b : Branch), s.branches[i]? = some b → b.isGrowing = true →
      ∃ b2, (update o delta rands s).branches[i]? = some b2 ∧
        (update o delta rands s).meshes[i]? =
          some ⟨b2.start, b2.endP, max 2 (Int.floor (b2.length * 4)),
            TUBE_RADIUS * (1 - (b2.generation : ℚ) * (6/100)),
            pulse o (s.elapsedTime + delta) b2.age⟩) := by
  refine ⟨?_, ?_, ?_, ?_, ?_⟩
  · by_cases h : MAX_BRANCHES ≤ s.branches.length
    · rw [createBranch_at_cap sq p d g s h]
      exact halign
    · rw [createBranch_below_cap sq p d g s (not_le.mp h)]
      simp [halign]
  · intro h
    rw [createBranch_below_cap sq p d g s h]
    exact ⟨rfl, rfl⟩
  · intro h
    exact createBranch_at_cap sq p d g s h
  · obtain ⟨k, hk1, hk2⟩ := foldl_stepAt_lengths o delta rands
      (List.range s.branches.length) { s with elapsedTime := s.elapsedTime + delta }
    have h1 : (update o delta rands s).branches.length = s.branches.length + k := hk1
    have h2 : (update o delta rands s).meshes.length = s.meshes.length + k := hk2
    omega
  · intro i b hbi hgrow
    have hib : i < s.branches.length := (List.getElem?_eq_some.mp hbi).1
    have him : i < s.meshes.length := by omega
    obtain ⟨m, hm⟩ : ∃ m, s.meshes[i]? = some m :=
      ⟨s.meshes[i], List.getElem?_eq_getElem him⟩
    obtain ⟨h1, h2⟩ := update_at_index o delta rands s i b m hbi hm
    refine ⟨finalBranch delta b, h1, ?_⟩
    rw [h2, finalMesh_growing o delta (s.elapsedTime + delta) b m hgrow]

/-- C10 witness: with one growing seed segment and its mesh, an update keeps
the mesh count equal to the segment count. -/
theorem growth_mesh_alignment_witness :
    (update ⟨fun _ => 0, fun _ => 0, fun _ => 0, fun _ => 0⟩ (1/60)
        (fun _ => ⟨0, 0, fun _ => 0⟩)
        ⟨[⟨⟨0, 0, 0⟩, ⟨0, 0, 0⟩, ⟨1, 0, 0⟩, 0, 0, true, 0, 6, 1/2⟩],
          [⟨⟨0, 0, 0⟩, ⟨1/100, 0, 0⟩, 2, 12/100, 9/10⟩], 0⟩).meshes.length =
      (update ⟨fun _ => 0, fun _ => 0, fun _ => 0, fun _ => 0⟩ (1/60)
        (fun _ => ⟨0, 0, fun _ => 0⟩)
        ⟨[⟨⟨0, 0, 0⟩, ⟨0, 0, 0⟩, ⟨1, 0, 0⟩, 0, 0, true, 0, 6, 1/2⟩],
          [⟨⟨0, 0, 0⟩, ⟨1/100, 0, 0⟩, 2, 12/100, 9/10⟩], 0⟩).branches.length :=
  (growth_mesh_alignment ⟨fun _ => 0, fun _ => 0, fun _ => 0, fun _ => 0⟩ (1/60)
    (fun _ => ⟨0, 0, fun _ => 0⟩)
    ⟨[⟨⟨0, 0, 0⟩, ⟨0, 0, 0⟩, ⟨1, 0, 0⟩, 0, 0, true, 0, 6, 1/2⟩],
      [⟨⟨0, 0, 0⟩, ⟨1/100, 0, 0⟩, 2, 12/100, 9/10⟩], 0⟩
    (fun _ => 0) ⟨0, 0, 0⟩ ⟨1, 0, 0⟩ 0 rfl).2.2.2.1

end Growth
